import Mathlib

/-! # regtools `puller`: a model of `puller/main.go`

The program reads a file of `repository:tag` lines and, for each non-empty
line, asks the auth service for a bearer token, probes the v1 manifest,
fetches the v2 manifest and downloads every layer blob.

The model is a shallow embedding with explicit state passing.  The state
(`World`) records what the process has done so far: the HTTP requests handed
to the shared client (in order), the lines printed on standard output, the
log lines, and the exit code once the process has terminated.  The inputs of
a run are the command line, the file system and the network (`Transport`): a
function from the requests issued so far and the current request to either a
transport error or a response.

Go strings are modelled by Lean strings (the input file is UTF-8 text).
The timing lines printed by `timeTrack` depend on the wall clock and are not
part of the model.
-/

namespace Puller

/-! ## Go library functions used by the program -/

/-- Splitting of a character list at every occurrence of `sep`. -/
def splitChars (sep : Char) : List Char → List (List Char)
  | [] => [[]]
  | c :: cs =>
    if c = sep then [] :: splitChars sep cs
    else
      match splitChars sep cs with
      | [] => [[c]]
      | h :: t => (c :: h) :: t

/-- Go `strings.Split(s, sep)` for a separator of one character: the
substrings of `s` between the occurrences of `sep`, in order. -/
def strings.Split (s : String) (sep : Char) : List String :=
  (splitChars sep s.data).map String.mk

/-- Go `strings.Count(s, sep)` for a separator of one character. -/
def strings.Count (s : String) (sep : Char) : Nat :=
  s.data.count sep

/-- A byte that `net/url` rejects as a control character. -/
def isCTL (c : Char) : Bool :=
  decide (c.toNat < 0x20) || decide (c.toNat = 0x7f)

/-- A hexadecimal digit, as `ishex` of `net/url`. -/
def ishex (c : Char) : Bool :=
  (decide ('0' ≤ c) && decide (c ≤ '9')) ||
  (decide ('a' ≤ c) && decide (c ≤ 'f')) ||
  (decide ('A' ≤ c) && decide (c ≤ 'F'))

/-- The check `unescape` of `net/url` performs on a path or a fragment:
every `%` is followed by two hexadecimal digits. -/
def validEscapes : List Char → Bool
  | [] => true
  | c :: rest =>
    if c = '%' then
      match rest with
      | a :: b :: rest2 => ishex a && ishex b && validEscapes rest2
      | _ => false
    else validEscapes rest

/-- Whether `http.NewRequest("GET", url, nil)` returns a request rather than
an error, for the URLs this program builds (`https://<fixed host>/...`).
`NewRequest` fails exactly when `url.Parse` fails.  `url.Parse` cuts the
fragment off at the first `#`; it then fails when the text before the
fragment holds a control character, or when the path (the text before the
first `?` or `#`) or the fragment holds a `%` that does not start a two-digit
hexadecimal escape.  The query is not checked for escapes, and the fragment is
not checked for control characters. -/
def newRequestOk (url : String) : Bool :=
  let cs := url.data
  let beforeFrag := cs.takeWhile (fun c => c ≠ '#')
  let frag := (cs.dropWhile (fun c => c ≠ '#')).drop 1
  let path := beforeFrag.takeWhile (fun c => c ≠ '?')
  !(beforeFrag.any isCTL) && validEscapes path && validEscapes frag

/-! ## JSON values and the decoding of `encoding/json` into the types of the program -/

/-- A JSON value as `encoding/json` sees it.  A number is kept as its
literal: `num n` is a literal made of digits only, `numOther` is any other
number literal (with a sign, a fraction or an exponent). -/
inductive JSON where
  | null
  | bool (b : Bool)
  | str (s : String)
  | num (n : Nat)
  | numOther (lit : String)
  | arr (xs : List JSON)
  | obj (kvs : List (String × JSON))

/-- A response body as the JSON decoder sees it: either its first JSON value,
or no value at all (empty, malformed, or the read failed). -/
inductive Body where
  | invalid
  | json (v : JSON)

/-! ## The data types of the program -/

/-- The struct `token`. -/
structure token where
  Token : String
  deriving DecidableEq

/-- The struct `layer`; `Size` is a `uint32`, kept as a natural number. -/
structure layer where
  Digest : String
  Size : Nat
  deriving DecidableEq

/-- The struct `manifest`. -/
structure manifest where
  Layers : List layer
  deriving DecidableEq

/-- The zero value `token{}`. -/
def token.zero : token := { Token := "" }

/-- The zero value `layer{}`. -/
def layer.zero : layer := { Digest := "", Size := 0 }

/-- The zero value `manifest{}`. -/
def manifest.zero : manifest := { Layers := [] }

/-! ### Decoding

`encoding/json` matches an object key with a struct field when the two are
equal up to case folding; unknown keys are skipped; `null` leaves a value
as it is (and empties a slice); a value of the wrong JSON type, or a number
that does not fit the field, is recorded as an error while decoding goes on,
and the recorded error is returned at the end.  Each decoder below returns
the updated value and whether an error was recorded. -/

/-- Case folding of one character, as used to compare keys with field names. -/
def foldChar (c : Char) : Char :=
  if c = Char.ofNat 0x17F then 's'
  else if c = Char.ofNat 0x212A then 'k'
  else c.toLower

/-- Whether the object key `key` selects the struct field named `field`. -/
def fieldMatch (field key : String) : Bool :=
  decide (field.data.map foldChar = key.data.map foldChar)

/-- Decoding of a JSON value into a `string` field. -/
def decodeString (v : JSON) (old : String) : String × Bool :=
  match v with
  | JSON.str s => (s, false)
  | JSON.null => (old, false)
  | _ => (old, true)

/-- Decoding of a JSON value into a `uint32` field: the literal must be an
unsigned integer that fits in 32 bits. -/
def decodeUint32 (v : JSON) (old : Nat) : Nat × Bool :=
  match v with
  | JSON.num n => if n < 2 ^ 32 then (n, false) else (old, true)
  | JSON.null => (old, false)
  | _ => (old, true)

/-- Decoding of the members of a JSON object into a `layer`. -/
def decodeLayerFields : List (String × JSON) → layer → layer × Bool
  | [], l => (l, false)
  | (k, v) :: kvs, l =>
    if fieldMatch "Digest" k then
      let r := decodeString v l.Digest
      let rest := decodeLayerFields kvs { l with Digest := r.1 }
      (rest.1, r.2 || rest.2)
    else if fieldMatch "Size" k then
      let r := decodeUint32 v l.Size
      let rest := decodeLayerFields kvs { l with Size := r.1 }
      (rest.1, r.2 || rest.2)
    else decodeLayerFields kvs l

/-- Decoding of a JSON value into a `layer`. -/
def decodeLayer (v : JSON) (old : layer) : layer × Bool :=
  match v with
  | JSON.obj kvs => decodeLayerFields kvs old
  | JSON.null => (old, false)
  | _ => (old, true)

/-- A `[]layer` slice as the decoder sees it: its elements (up to its length)
and the elements its backing array still holds past its length, within its
capacity (`spare`).  Past the spare elements the backing array holds zero
layers only, whether it has that capacity already or has to grow. -/
structure layerSlice where
  elems : List layer
  spare : List layer

/-- Decoding of the elements of a JSON array into a `[]layer` with the backing
array `backing`: element `i` is decoded into the element the backing array
holds at `i` (an element of the slice, or a stale element within its
capacity), or into a zero `layer` past it.  The result is the decoded
elements, one per array element, the part of the backing array left past
them, and the error flag. -/
def decodeLayerArray : List JSON → List layer → List layer × List layer × Bool
  | [], backing => ([], backing, false)
  | e :: es, backing =>
    let r := decodeLayer e (backing.headD layer.zero)
    let rest := decodeLayerArray es backing.tail
    (r.1 :: rest.1, rest.2.1, r.2 || rest.2.2)

/-- Decoding of a JSON value into the field `Layers []layer`.  An array with
elements is decoded over the backing array and the slice is cut to the number
of elements, what lies past them staying in the backing array; an empty array
gives a new empty slice and `null` the nil slice, both without backing
array. -/
def decodeLayers (v : JSON) (old : layerSlice) : layerSlice × Bool :=
  match v with
  | JSON.arr [] => ({ elems := [], spare := [] }, false)
  | JSON.arr (e :: es) =>
    let r := decodeLayerArray (e :: es) (old.elems ++ old.spare)
    ({ elems := r.1, spare := r.2.1 }, r.2.2)
  | JSON.null => ({ elems := [], spare := [] }, false)
  | _ => (old, true)

/-- Decoding of the members of a JSON object into a `manifest`, whose only
field is the slice `Layers`. -/
def decodeManifestFields : List (String × JSON) → layerSlice → layerSlice × Bool
  | [], sl => (sl, false)
  | (k, v) :: kvs, sl =>
    if fieldMatch "Layers" k then
      let r := decodeLayers v sl
      let rest := decodeManifestFields kvs r.1
      (rest.1, r.2 || rest.2)
    else decodeManifestFields kvs sl

/-- The call `json.NewDecoder(body).Decode(m)` for `m *manifest`: the updated
manifest and whether `Decode` returned an error.  The slice of `m` is taken
without spare capacity, as in the `new(manifest)` of `getManifestV2`. -/
def decodeManifest (b : Body) (m : manifest) : manifest × Bool :=
  match b with
  | Body.invalid => (m, true)
  | Body.json (JSON.obj kvs) =>
    let r := decodeManifestFields kvs { elems := m.Layers, spare := [] }
    ({ Layers := r.1.elems }, r.2)
  | Body.json JSON.null => (m, false)
  | Body.json _ => (m, true)

/-- Decoding of the members of a JSON object into a `token`. -/
def decodeTokenFields : List (String × JSON) → token → token × Bool
  | [], t => (t, false)
  | (k, v) :: kvs, t =>
    if fieldMatch "Token" k then
      let r := decodeString v t.Token
      let rest := decodeTokenFields kvs { Token := r.1 }
      (rest.1, r.2 || rest.2)
    else decodeTokenFields kvs t

/-- The call `json.NewDecoder(body).Decode(t)` for `t *token`: the updated
token and whether `Decode` returned an error. -/
def decodeToken (b : Body) (t : token) : token × Bool :=
  match b with
  | Body.invalid => (t, true)
  | Body.json (JSON.obj kvs) => decodeTokenFields kvs t
  | Body.json JSON.null => (t, false)
  | Body.json _ => (t, true)

/-! ## HTTP and the state of the process -/

/-- A request handed to the shared HTTP client: a `GET` of `url` with the
headers the program added, in order. -/
structure Request where
  url : String
  headers : List (String × String)
  deriving DecidableEq

/-- A response returned by the shared HTTP client. -/
structure Response where
  StatusCode : Nat
  Status : String
  ContentLength : List String
  Body : Body

/-- The network behind the shared HTTP client (`httpClient.Get`,
`httpClient.Do`): given the requests issued so far and the current request,
either an error (with its text) or a response.  Retries, timeouts and
backoff happen inside the client and are not visible to the program. -/
abbrev Transport := List Request → Request → Except String Response

/-- The errors the functions of the program return. -/
inductive Error where
  | newRequest (url : String)
  | transport (text : String)
  | status (Status : String)
  | decode
  deriving DecidableEq

/-- The lines the program writes with the `log` package (timing lines apart). -/
inductive LogLine where
  | pulling (image : String)
  | unableManifestV2 (err : Error)
  | unableManifest (err : Error)
  | blobURL (url : String)
  | layerSize (contentLength : List String)
  | fatal (text : String)
  deriving DecidableEq

/-- What the process has done so far. -/
structure World where
  trace : List Request
  stdout : List String
  log : List LogLine
  exit : Option Nat
  deriving DecidableEq

/-- The state of a process that has just started. -/
def World.init : World := { trace := [], stdout := [], log := [], exit := none }

/-- The process hands `req` to the shared HTTP client. -/
def World.send (w : World) (req : Request) : World :=
  { w with trace := w.trace ++ [req] }

/-- The process writes a log line. -/
def World.logPrint (w : World) (l : LogLine) : World :=
  { w with log := w.log ++ [l] }

/-- The process prints a line on standard output. -/
def World.println (w : World) (s : String) : World :=
  { w with stdout := w.stdout ++ [s] }

/-- The exit code of the process: the code passed to `os.Exit`, or 0 when
`main` returned. -/
def World.exitCode (w : World) : Nat := w.exit.getD 0

/-! ## The program -/

/-- The constant `garant`. -/
def garant : String := "auth.docker.io"

/-- The constant `registry`. -/
def registry : String := "registry-1.docker.io"

/-- The function `getJSON`, used with a `*token` target: a `GET` of `url`
through the shared client, then the decoding of the body into the target.
The status of the response is not looked at. -/
def getJSON (env : Transport) (url : String) (target : token) (w : World) :
    token × Option Error × World :=
  if newRequestOk url then
    let req : Request := { url := url, headers := [] }
    match env w.trace req with
    | Except.error text => (target, some (Error.transport text), w.send req)
    | Except.ok r =>
      let d := decodeToken r.Body target
      (d.1, if d.2 then some Error.decode else none, w.send req)
  else (target, some (Error.newRequest url), w)

/-- The URL `getToken` builds. -/
def tokenURL (repository : String) : String :=
  "https://" ++ garant ++ "/token?service=registry.docker.io&scope=repository:" ++ repository
    ++ ":*&scope=repository(plugin):" ++ repository ++ ":*"

/-- The function `getToken`. -/
def getToken (env : Transport) (repository : String) (w : World) :
    token × Option Error × World :=
  let url := tokenURL repository
  let r := getJSON env url token.zero w
  match r.2.1 with
  | some err => (token.zero, some err, r.2.2)
  | none => (r.1, none, r.2.2)

/-- The URL both manifest functions build. -/
def manifestURL (repository tag : String) : String :=
  "https://" ++ registry ++ "/v2/" ++ repository ++ "/manifests/" ++ tag

/-- The request `getManifestV1Noop` builds. -/
def manifestV1Request (repository tag : String) (tok : token) : Request :=
  { url := manifestURL repository tag,
    headers := [("Authorization", "Bearer " ++ tok.Token),
                ("Accept", "application/vnd.docker.distribution.manifest.v1+json")] }

/-- The request `getManifestV2` builds. -/
def manifestV2Request (repository tag : String) (tok : token) : Request :=
  { url := manifestURL repository tag,
    headers := [("Authorization", "Bearer " ++ tok.Token),
                ("Accept", "application/vnd.docker.distribution.manifest.v2+json")] }

/-- The function `getManifestV1Noop`. -/
def getManifestV1Noop (env : Transport) (repository tag : String) (tok : token) (w : World) :
    Option Error × World :=
  let url := manifestURL repository tag
  if newRequestOk url then
    let req := manifestV1Request repository tag tok
    match env w.trace req with
    | Except.error text => (some (Error.transport text), w.send req)
    | Except.ok resp =>
      if resp.StatusCode ≠ 200 then (some (Error.status resp.Status), w.send req)
      else (none, w.send req)
  else (some (Error.newRequest url), w)

/-- The function `getManifestV2`. -/
def getManifestV2 (env : Transport) (repository tag : String) (tok : token) (w : World) :
    manifest × Option Error × World :=
  let url := manifestURL repository tag
  if newRequestOk url then
    let req := manifestV2Request repository tag tok
    match env w.trace req with
    | Except.error text => (manifest.zero, some (Error.transport text), w.send req)
    | Except.ok resp =>
      if resp.StatusCode ≠ 200 then
        (manifest.zero, some (Error.status resp.Status), w.send req)
      else
        let d := decodeManifest resp.Body manifest.zero
        if d.2 then (manifest.zero, some Error.decode, w.send req)
        else (d.1, none, w.send req)
  else (manifest.zero, some (Error.newRequest url), w)

/-- The URL `getLayers` builds for one layer. -/
def blobURL (repository : String) (l : layer) : String :=
  "https://" ++ registry ++ "/v2/" ++ repository ++ "/blobs/" ++ l.Digest

/-- The request `getLayers` builds for one layer. -/
def blobRequest (repository : String) (tok : token) (l : layer) : Request :=
  { url := blobURL repository l,
    headers := [("Authorization", "Bearer " ++ tok.Token)] }

/-- The loop of `getLayers` over the layers still to fetch.  After a response
with status 200 the size is logged, the body is read to its end and the loop
goes on with the next layer: the model follows the statements of the source,
not its comment about blocking at the read. -/
def getLayersLoop (env : Transport) (repository : String) (tok : token) :
    List layer → World → Option Error × World
  | [], w => (none, w)
  | l :: ls, w =>
    let url := blobURL repository l
    let w1 := w.logPrint (LogLine.blobURL url)
    if newRequestOk url then
      let req := blobRequest repository tok l
      match env w1.trace req with
      | Except.error text => (some (Error.transport text), w1.send req)
      | Except.ok resp =>
        if resp.StatusCode ≠ 200 then (some (Error.status resp.Status), w1.send req)
        else
          getLayersLoop env repository tok ls
            ((w1.send req).logPrint (LogLine.layerSize resp.ContentLength))
    else (some (Error.newRequest url), w1)

/-- The function `getLayers`. -/
def getLayers (env : Transport) (repository : String) (m : manifest) (tok : token)
    (w : World) : Option Error × World :=
  getLayersLoop env repository tok m.Layers w

/-- The statement `if err != nil { log.Printf(...) }`: the line `mk err` is
logged when there is an error. -/
def World.logErr (w : World) (mk : Error → LogLine) (err : Option Error) : World :=
  match err with
  | some e => w.logPrint (mk e)
  | none => w

/-- The function `pull`.  A line that does not split into two parts prints
the message and terminates the process with exit code 1. -/
def pull (env : Transport) (image : String) (w : World) : World :=
  let t := strings.Split image ':'
  if t.length ≠ 2 then
    { w.println "Invalid argument. Expected image:tag." with exit := some 1 }
  else
    let repository := t.getD 0 ""
    let tag := t.getD 1 ""
    let w0 := w.logPrint (LogLine.pulling image)
    let rt := getToken env repository w0
    let tok := rt.1
    let r1 := getManifestV1Noop env repository tag tok rt.2.2
    let w1 := r1.2.logErr LogLine.unableManifestV2 r1.1
    let r2 := getManifestV2 env repository tag tok w1
    let w2 := r2.2.2.logErr LogLine.unableManifestV2 r2.2.1
    let r3 := getLayers env repository r2.1 tok w2
    r3.2.logErr LogLine.unableManifest r3.1

/-- An input file as the line scanner delivers it: the lines it yields, in
order, and whether `scanner.Err()` is an error once it stops. -/
structure File where
  lines : List String
  scanErr : Option String

/-- The loop of `main` over the scanned lines.  The process stops at the
first line for which `pull` terminates it. -/
def scanLoop (env : Transport) : List String → World → World
  | [], w => w
  | line :: rest, w =>
    if line.length > 0 then
      let w1 := pull env line w
      match w1.exit with
      | some _ => w1
      | none => scanLoop env rest w1
    else scanLoop env rest w

/-- The call `log.Fatal(text)`: the line is logged and the process exits with
code 1. -/
def World.fatal (w : World) (text : String) : World :=
  { w.logPrint (LogLine.fatal text) with exit := some 1 }

/-- The name and the value of a flag argument, its minus signs removed: the
argument is cut at its first `=` that is not its first character. -/
def flagNameValue (name : List Char) : List Char × Option (List Char) :=
  match name with
  | [] => ([], none)
  | c :: cs =>
    if cs.contains '=' then
      (c :: cs.takeWhile (fun x => x ≠ '='), some ((cs.dropWhile (fun x => x ≠ '=')).drop 1))
    else (c :: cs, none)

/-- The outcome of `flag.Parse()`: the process exits with a code, or goes on
with the value of the `-file` flag. -/
inductive FlagResult where
  | exit (code : Nat)
  | parsed (fileStr : String)
  deriving DecidableEq

/-- The loop of `flag.Parse()` over the command line arguments still to read,
with the one string flag `file` defined and `fileStr` its value so far.
`needValue` tells that the argument before was `-file` without `=`, whose
value is the next argument.  Parsing stops at the first argument that is not
a flag (shorter than two characters, or not starting with `-`) and at `--`.
The process exits with 0 on an undefined `-h` or `-help`, and with 2 on any
other undefined flag, on a bad flag syntax and on a missing value. -/
def parseArgs : Bool → List String → String → FlagResult
  | true, [], _ => FlagResult.exit 2
  | true, value :: rest, _ => parseArgs false rest value
  | false, [], fileStr => FlagResult.parsed fileStr
  | false, s :: rest, fileStr =>
    match s.data with
    | c0 :: c1 :: cs =>
      if c0 ≠ '-' then FlagResult.parsed fileStr
      else if c1 = '-' ∧ cs = [] then FlagResult.parsed fileStr
      else
        let name := if c1 = '-' then cs else c1 :: cs
        if name.head? = none ∨ name.head? = some '-' ∨ name.head? = some '=' then
          FlagResult.exit 2
        else
          let nv := flagNameValue name
          if nv.1 = "file".data then
            match nv.2 with
            | some value => parseArgs false rest (String.mk value)
            | none => parseArgs true rest fileStr
          else if nv.1 = "help".data ∨ nv.1 = "h".data then FlagResult.exit 0
          else FlagResult.exit 2
    | _ => FlagResult.parsed fileStr

/-- The call `flag.Parse()` of package `flag` on the command line arguments
(`os.Args[1:]`), the flag `file` having the default value `""`.  The usage and
error texts go to standard error, which is not part of the model. -/
def flagParse (args : List String) : FlagResult :=
  parseArgs false args ""

/-- The function `main`.  `args` is the command line (`os.Args[1:]`) and `fs`
the file system: `os.Open` of a path gives an error text or a file. -/
def main (fs : String → Except String File) (env : Transport) (args : List String) : World :=
  match flagParse args with
  | FlagResult.exit code => { World.init with exit := some code }
  | FlagResult.parsed fileStr =>
    if fileStr = "" then World.init.fatal "File is required"
    else
      match fs fileStr with
      | Except.error text => World.init.fatal text
      | Except.ok file =>
        let w := scanLoop env file.lines World.init
        match w.exit with
        | some _ => w
        | none =>
          match file.scanErr with
          | some text => w.fatal text
          | none => w

/-- The part of `main` that follows `flag.Parse()`, for the value `fileStr` of
the `-file` flag. -/
def mainWithFile (fs : String → Except String File) (env : Transport) (fileStr : String) :
    World :=
  if fileStr = "" then World.init.fatal "File is required"
  else
    match fs fileStr with
    | Except.error text => World.init.fatal text
    | Except.ok file =>
      let w := scanLoop env file.lines World.init
      match w.exit with
      | some _ => w
      | none =>
        match file.scanErr with
        | some text => w.fatal text
        | none => w

/-- The lines `main` hands to `pull`: the non-empty lines of the file, in
order, up to and including the first one that does not hold exactly one
colon. -/
def linesPulled : List String → List String
  | [] => []
  | line :: rest =>
    if line = "" then linesPulled rest
    else if strings.Count line ':' = 1 then line :: linesPulled rest
    else [line]

/-! ## The query of a URL -/

/-- The query of a URL: the text after the first `?`, up to the first `#`. -/
def rawQuery (url : String) : List Char :=
  ((url.data.takeWhile (fun c => c ≠ '#')).dropWhile (fun c => c ≠ '?')).drop 1

/-- The parameters of the query of a URL, in order: the pieces between the
`&` signs, each cut into name and value at its first `=`. -/
def queryParams (url : String) : List (String × String) :=
  (splitChars '&' (rawQuery url)).map fun p =>
    (String.mk (p.takeWhile (fun c => c ≠ '=')),
     String.mk ((p.dropWhile (fun c => c ≠ '=')).drop 1))

/-- The values of the query parameters called `name`, in order. -/
def queryValues (url name : String) : List String :=
  ((queryParams url).filter (fun p => p.1 = name)).map (fun p => p.2)

/-! ## The blob requests, one layer at a time -/

/-- Whether the step of `getLayers` for layer number `k` (counted from 0) goes
through when the layers before it were requested in order after the requests
`hist`: the URL of the layer is accepted by `http.NewRequest` and the answer
to its request is a response with status 200. -/
def blobStepOk (env : Transport) (repository : String) (tok : token) (layers : List layer)
    (hist : List Request) (k : Nat) : Bool :=
  match layers[k]? with
  | none => false
  | some l =>
    newRequestOk (blobURL repository l) &&
      match env (hist ++ (layers.take k).map (blobRequest repository tok))
          (blobRequest repository tok l) with
      | Except.ok r => decide (r.StatusCode = 200)
      | Except.error _ => false

/-- A network that answers the request number `i` (counted from 0 over the
whole run) with the entry `i` of `script`, and fails past its end. -/
def envScript (script : List (Except String Response)) : Transport := fun hist _ =>
  script.getD hist.length (Except.error "connection refused")

/-- A response with status 200 and body `b`. -/
def ok200 (b : Body) : Except String Response :=
  Except.ok { StatusCode := 200, Status := "200 OK", ContentLength := [], Body := b }

/-- A response with status 404. -/
def notFound : Except String Response :=
  Except.ok { StatusCode := 404, Status := "404 Not Found", ContentLength := [],
              Body := Body.invalid }

/-- The state of `pull`, for an accepted line, when `getManifestV2` has
returned and its error, if any, has been logged: the token in use, the
manifest and the error `getManifestV2` returned, and the state. -/
structure PullStage where
  tok : token
  m : manifest
  err : Option Error
  world : World

/-- The part of `pull` that comes before the call of `getLayers`, for an
accepted line. -/
def pullBeforeLayers (env : Transport) (image : String) (w : World) : PullStage :=
  let t := strings.Split image ':'
  let repository := t.getD 0 ""
  let tag := t.getD 1 ""
  let w0 := w.logPrint (LogLine.pulling image)
  let rt := getToken env repository w0
  let tok := rt.1
  let r1 := getManifestV1Noop env repository tag tok rt.2.2
  let w1 := r1.2.logErr LogLine.unableManifestV2 r1.1
  let r2 := getManifestV2 env repository tag tok w1
  { tok := tok, m := r2.1, err := r2.2.1,
    world := r2.2.2.logErr LogLine.unableManifestV2 r2.2.1 }

/-! ## The requests the specification expects -/

/-- The blob requests of the layers `layers`, issued after the requests
`hist`: in layer order, up to and including the first request that fails or
is not answered with status 200; a layer whose URL `http.NewRequest` rejects
stops the sequence before its request. -/
def blobGETs (env : Transport) (repository : String) (tok : token) :
    List layer → List Request → List Request
  | [], _ => []
  | l :: ls, hist =>
    if newRequestOk (blobURL repository l) then
      blobRequest repository tok l ::
        (match env hist (blobRequest repository tok l) with
         | Except.ok r =>
           if r.StatusCode = 200 then
             blobGETs env repository tok ls (hist ++ [blobRequest repository tok l])
           else []
         | Except.error _ => [])
    else []

/-- The token the answer to the token request yields: the decoded token, or
the zero token when the request or the decoding failed. -/
def tokenOf (ans : Except String Response) : token :=
  match ans with
  | Except.error _ => token.zero
  | Except.ok r =>
    if (decodeToken r.Body token.zero).2 then token.zero
    else (decodeToken r.Body token.zero).1

/-- The manifest the answer to the v2 manifest request yields: the decoded
manifest, or the zero manifest when the request failed, the status was not
200 or the decoding failed. -/
def manifestOf (ans : Except String Response) : manifest :=
  match ans with
  | Except.error _ => manifest.zero
  | Except.ok r =>
    if r.StatusCode = 200 then
      if (decodeManifest r.Body manifest.zero).2 then manifest.zero
      else (decodeManifest r.Body manifest.zero).1
    else manifest.zero

/-- Whether a request is a v1 manifest probe: it carries the v1 `Accept`
header. -/
def isV1Probe (req : Request) : Bool :=
  req.headers.contains ("Accept", "application/vnd.docker.distribution.manifest.v1+json")

/-- The requests expected for one image, issued after the requests `hist`:
the token request, the v1 manifest probe, the v2 manifest request, and the
blob requests of the manifest the v2 request returned.  The answer to the
v1 probe is not used. -/
def imageRequests (env : Transport) (hist : List Request) (repository tag : String) :
    List Request :=
  let r0 : Request := { url := tokenURL repository, headers := [] }
  let tok := tokenOf (env hist r0)
  let r1 := manifestV1Request repository tag tok
  let r2 := manifestV2Request repository tag tok
  let m := manifestOf (env (hist ++ [r0, r1]) r2)
  [r0, r1, r2] ++ blobGETs env repository tok m.Layers (hist ++ [r0, r1, r2])

/-- The requests expected for the lines of a file, issued after the requests
`hist`: those of each non-empty line, in file order. -/
def fileRequests (env : Transport) : List String → List Request → List Request
  | [], _ => []
  | line :: rest, hist =>
    if line = "" then fileRequests env rest hist
    else
      let reqs := imageRequests env hist ((strings.Split line ':').getD 0 "")
        ((strings.Split line ':').getD 1 "")
      reqs ++ fileRequests env rest (hist ++ reqs)

/-- A registry that answers a request without headers (the token request)
with the token `T`, and every other request with status 200 and a v2
manifest of two layers. -/
def envHub : Transport := fun _ req =>
  if req.headers = [] then ok200 (Body.json (JSON.obj [("token", JSON.str "T")]))
  else
    ok200 (Body.json (JSON.obj
      [("schemaVersion", JSON.num 2),
       ("layers", JSON.arr
         [JSON.obj [("mediaType", JSON.str "application/vnd.docker.image.rootfs.diff.tar.gzip"),
                    ("size", JSON.num 2797541), ("digest", JSON.str "sha256:aaaa")],
          JSON.obj [("mediaType", JSON.str "application/vnd.docker.image.rootfs.diff.tar.gzip"),
                    ("size", JSON.num 1024), ("digest", JSON.str "sha256:bbbb")]])]))

/-- A file system that holds one file, whatever the path. -/
def fsOne (file : File) : String → Except String File := fun _ => Except.ok file

/-- A v2 manifest body with one layer of digest `sha256:aaaa` and the given
size. -/
def manifestBody (size : Nat) : Body :=
  Body.json (JSON.obj
    [("schemaVersion", JSON.num 2),
     ("layers", JSON.arr [JSON.obj [("size", JSON.num size), ("digest", JSON.str "sha256:aaaa")]])])

/-! ## Fixed networks used in examples -/

/-- A network that answers every request with status 200 and body `b`. -/
def env200 (b : Body) : Transport := fun _ _ =>
  Except.ok { StatusCode := 200, Status := "200 OK", ContentLength := [], Body := b }

/-- A network on which every request fails. -/
def envDown : Transport := fun _ _ => Except.error "timeout"

/-! # Theorems -/

/-! ## Splitting -/

theorem splitChars_ne_nil (sep : Char) (cs : List Char) : splitChars sep cs ≠ [] := by
  induction cs with
  | nil => simp [splitChars]
  | cons c cs ih =>
    unfold splitChars
    split
    · simp
    · split <;> simp

theorem length_splitChars (sep : Char) (cs : List Char) :
    (splitChars sep cs).length = cs.count sep + 1 := by
  induction cs with
  | nil => simp [splitChars]
  | cons c cs ih =>
    unfold splitChars
    by_cases h : c = sep
    · subst h; simp [ih]
    · have hne := splitChars_ne_nil sep cs
      rw [if_neg h]
      cases hs : splitChars sep cs with
      | nil => exact absurd hs hne
      | cons a t =>
        rw [hs] at ih
        simp only [List.length_cons] at ih ⊢
        rw [List.count_cons_of_ne (Ne.symm h)]
        omega

theorem length_Split (s : String) (sep : Char) :
    (strings.Split s sep).length = strings.Count s sep + 1 := by
  simp [strings.Split, strings.Count, length_splitChars]

/-- A list that splits in two parts is the first part, the separator, the
second part; neither part holds the separator. -/
theorem splitChars_two (sep : Char) (cs a b : List Char)
    (h : splitChars sep cs = [a, b]) :
    cs = a ++ sep :: b ∧ sep ∉ a ∧ sep ∉ b := by
  induction cs generalizing a with
  | nil => simp [splitChars] at h
  | cons c cs ih =>
    unfold splitChars at h
    by_cases hc : c = sep
    · subst hc
      rw [if_pos rfl] at h
      simp only [List.cons.injEq] at h
      obtain ⟨ha, hb⟩ := h
      subst ha
      have hcount : cs.count c = 0 := by
        have := length_splitChars c cs
        rw [hb] at this
        simp at this
        omega
      have hnot : c ∉ cs := List.count_eq_zero.mp hcount
      -- a list without the separator splits into itself
      have hsame : ∀ (l : List Char), c ∉ l → splitChars c l = [l] := by
        intro l
        induction l with
        | nil => intro _; simp [splitChars]
        | cons x xs ihx =>
          intro hx
          simp only [List.mem_cons, not_or] at hx
          unfold splitChars
          rw [if_neg (Ne.symm hx.1), ihx hx.2]
      rw [hsame cs hnot] at hb
      simp only [List.cons.injEq, and_true] at hb
      subst hb
      simp [hnot]
    · rw [if_neg hc] at h
      cases hs : splitChars sep cs with
      | nil => exact absurd hs (splitChars_ne_nil sep cs)
      | cons x t =>
        rw [hs] at h
        simp only [List.cons.injEq] at h
        obtain ⟨ha, ht⟩ := h
        subst ha ht
        obtain ⟨h1, h2, h3⟩ := ih x hs
        refine ⟨by rw [h1]; simp, ?_, h3⟩
        simp only [List.mem_cons, not_or]
        exact ⟨Ne.symm hc, h2⟩

/-! ## What each function does to the state -/

@[simp]
theorem send_trace (w : World) (r : Request) : (w.send r).trace = w.trace ++ [r] := rfl
@[simp]
theorem send_stdout (w : World) (r : Request) : (w.send r).stdout = w.stdout := rfl
@[simp]
theorem send_log (w : World) (r : Request) : (w.send r).log = w.log := rfl
@[simp]
theorem send_exit (w : World) (r : Request) : (w.send r).exit = w.exit := rfl
@[simp]
theorem logPrint_trace (w : World) (l : LogLine) : (w.logPrint l).trace = w.trace := rfl
@[simp]
theorem logPrint_stdout (w : World) (l : LogLine) : (w.logPrint l).stdout = w.stdout := rfl
@[simp]
theorem logPrint_log (w : World) (l : LogLine) : (w.logPrint l).log = w.log ++ [l] := rfl
@[simp]
theorem logPrint_exit (w : World) (l : LogLine) : (w.logPrint l).exit = w.exit := rfl

/-- The state after `getJSON`: one request when the URL is well formed. -/
theorem getJSON_world (env : Transport) (url : String) (t : token) (w : World) :
    (getJSON env url t w).2.2 =
      if newRequestOk url then w.send { url := url, headers := [] } else w := by
  unfold getJSON
  by_cases h : newRequestOk url = true
  · simp only [h, if_true]
    cases env w.trace { url := url, headers := [] } <;> rfl
  · simp [h]

/-- The state after `getToken`. -/
theorem getToken_world (env : Transport) (repository : String) (w : World) :
    (getToken env repository w).2.2 =
      if newRequestOk (tokenURL repository) then
        w.send { url := tokenURL repository, headers := [] } else w := by
  have h := getJSON_world env (tokenURL repository) token.zero w
  unfold getToken
  simp only
  cases hr : (getJSON env (tokenURL repository) token.zero w).2.1 <;> simpa using h

/-- The state after `getManifestV1Noop`. -/
theorem getManifestV1Noop_world (env : Transport) (repository tag : String) (tok : token)
    (w : World) :
    (getManifestV1Noop env repository tag tok w).2 =
      if newRequestOk (manifestURL repository tag) then
        w.send (manifestV1Request repository tag tok) else w := by
  unfold getManifestV1Noop
  by_cases h : newRequestOk (manifestURL repository tag) = true
  · simp only [h, if_true]
    cases env w.trace (manifestV1Request repository tag tok) with
    | error e => rfl
    | ok r => by_cases hs : r.StatusCode = 200 <;> simp [hs]
  · simp [h]

/-- The state after `getManifestV2`. -/
theorem getManifestV2_world (env : Transport) (repository tag : String) (tok : token)
    (w : World) :
    (getManifestV2 env repository tag tok w).2.2 =
      if newRequestOk (manifestURL repository tag) then
        w.send (manifestV2Request repository tag tok) else w := by
  unfold getManifestV2
  by_cases h : newRequestOk (manifestURL repository tag) = true
  · simp only [h, if_true]
    cases env w.trace (manifestV2Request repository tag tok) with
    | error e => rfl
    | ok r =>
      by_cases hs : r.StatusCode = 200
      · by_cases hd : (decodeManifest r.Body manifest.zero).2 = true <;> simp [hs, hd]
      · simp [hs]
  · simp [h]

/-- The function `getLayers` leaves standard output and the exit state alone. -/
theorem getLayersLoop_frame (env : Transport) (repository : String) (tok : token)
    (ls : List layer) (w : World) :
    (getLayersLoop env repository tok ls w).2.stdout = w.stdout ∧
    (getLayersLoop env repository tok ls w).2.exit = w.exit := by
  induction ls generalizing w with
  | nil => simp [getLayersLoop]
  | cons l ls ih =>
    unfold getLayersLoop
    by_cases h : newRequestOk (blobURL repository l) = true
    · simp only [h, if_true]
      cases env (w.logPrint (LogLine.blobURL (blobURL repository l))).trace
          (blobRequest repository tok l) with
      | error e => simp
      | ok r =>
        by_cases hs : r.StatusCode = 200
        · simp only [hs, ne_eq, not_true_eq_false, if_false]
          have := ih (((w.logPrint (LogLine.blobURL (blobURL repository l))).send
            (blobRequest repository tok l)).logPrint (LogLine.layerSize r.ContentLength))
          simpa using this
        · simp [hs]
    · simp [h]

@[simp]
theorem logErr_trace (w : World) (mk : Error → LogLine) (e : Option Error) :
    (w.logErr mk e).trace = w.trace := by cases e <;> rfl
@[simp]
theorem logErr_stdout (w : World) (mk : Error → LogLine) (e : Option Error) :
    (w.logErr mk e).stdout = w.stdout := by cases e <;> rfl
@[simp]
theorem logErr_exit (w : World) (mk : Error → LogLine) (e : Option Error) :
    (w.logErr mk e).exit = w.exit := by cases e <;> rfl

@[simp]
theorem getToken_exit (env : Transport) (repository : String) (w : World) :
    (getToken env repository w).2.2.exit = w.exit := by
  rw [getToken_world]; split <;> rfl
@[simp]
theorem getToken_stdout (env : Transport) (repository : String) (w : World) :
    (getToken env repository w).2.2.stdout = w.stdout := by
  rw [getToken_world]; split <;> rfl
@[simp]
theorem getManifestV1Noop_exit (env : Transport) (repository tag : String)
    (tok : token) (w : World) :
    (getManifestV1Noop env repository tag tok w).2.exit = w.exit := by
  rw [getManifestV1Noop_world]; split <;> rfl
@[simp]
theorem getManifestV1Noop_stdout (env : Transport) (repository tag : String)
    (tok : token) (w : World) :
    (getManifestV1Noop env repository tag tok w).2.stdout = w.stdout := by
  rw [getManifestV1Noop_world]; split <;> rfl
@[simp]
theorem getManifestV2_exit (env : Transport) (repository tag : String)
    (tok : token) (w : World) :
    (getManifestV2 env repository tag tok w).2.2.exit = w.exit := by
  rw [getManifestV2_world]; split <;> rfl
@[simp]
theorem getManifestV2_stdout (env : Transport) (repository tag : String)
    (tok : token) (w : World) :
    (getManifestV2 env repository tag tok w).2.2.stdout = w.stdout := by
  rw [getManifestV2_world]; split <;> rfl
@[simp]
theorem getLayers_exit (env : Transport) (repository : String) (m : manifest)
    (tok : token) (w : World) :
    (getLayers env repository m tok w).2.exit = w.exit :=
  (getLayersLoop_frame env repository tok m.Layers w).2
@[simp]
theorem getLayers_stdout (env : Transport) (repository : String) (m : manifest)
    (tok : token) (w : World) :
    (getLayers env repository m tok w).2.stdout = w.stdout :=
  (getLayersLoop_frame env repository tok m.Layers w).1

/-- The exit state after `pull`. -/
theorem pull_exit (env : Transport) (image : String) (w : World) :
    (pull env image w).exit =
      if (strings.Split image ':').length ≠ 2 then some 1 else w.exit := by
  unfold pull
  by_cases h : (strings.Split image ':').length = 2
  · simp [h]
  · simp [h, World.println]

/-- Standard output after `pull`. -/
theorem pull_stdout (env : Transport) (image : String) (w : World) :
    (pull env image w).stdout =
      if (strings.Split image ':').length ≠ 2 then
        w.stdout ++ ["Invalid argument. Expected image:tag."] else w.stdout := by
  unfold pull
  by_cases h : (strings.Split image ':').length = 2
  · simp [h]
  · simp [h, World.println]

/-- A rejected line issues no request. -/
theorem pull_trace_rejected (env : Transport) (image : String) (w : World)
    (h : (strings.Split image ':').length ≠ 2) :
    (pull env image w).trace = w.trace := by
  unfold pull
  simp [h, World.println]

/-- The two parts of an accepted line. -/
theorem Split_two (image : String) (h : (strings.Split image ':').length = 2) :
    ∃ a b : List Char, splitChars ':' image.data = [a, b] ∧
      (strings.Split image ':').getD 0 "" = String.mk a ∧
      (strings.Split image ':').getD 1 "" = String.mk b := by
  unfold strings.Split at h ⊢
  cases hs : splitChars ':' image.data with
  | nil => rw [hs] at h; simp at h
  | cons a t =>
    cases t with
    | nil => rw [hs] at h; simp at h
    | cons b t2 =>
      cases t2 with
      | nil => exact ⟨a, b, rfl, by simp, by simp⟩
      | cons c t3 => rw [hs] at h; simp at h

/-- C1: a line passed to `pull` is accepted (the process goes on, nothing is
printed on standard output) exactly when it holds exactly one colon; any
other line prints `Invalid argument. Expected image:tag.`, terminates the
process with exit code 1 and issues no HTTP request. -/
theorem pull_accepts_iff_exactly_one_colon (env : Transport) (image : String) (w : World)
    (hrun : w.exit = none) :
    ((pull env image w).exit = none ↔ strings.Count image ':' = 1) ∧
    (strings.Count image ':' = 1 → (pull env image w).stdout = w.stdout) ∧
    (strings.Count image ':' ≠ 1 →
      (pull env image w).exit = some 1 ∧
      (pull env image w).stdout = w.stdout ++ ["Invalid argument. Expected image:tag."] ∧
      (pull env image w).trace = w.trace) := by
  have hlen := length_Split image ':'
  refine ⟨?_, ?_, ?_⟩
  · rw [pull_exit]
    by_cases h : strings.Count image ':' = 1
    · simp [hlen, h, hrun]
    · have : ¬ (strings.Split image ':').length = 2 := by omega
      simp [this, h]
  · intro h
    rw [pull_stdout]
    simp [hlen, h]
  · intro h
    have hne : (strings.Split image ':').length ≠ 2 := by omega
    refine ⟨?_, ?_, pull_trace_rejected env image w hne⟩
    · rw [pull_exit]; simp [hne]
    · rw [pull_stdout]; simp [hne]

/-- Witness for C1: the lines `alpine:latest`, `alpine` and `a:b:c`. -/
theorem pull_accepts_iff_exactly_one_colon_witness :
    World.init.exit = none ∧
    (pull envDown "alpine:latest" World.init).exit = none ∧
    ((pull envDown "alpine" World.init).exit = some 1 ∧
      (pull envDown "alpine" World.init).stdout = ["Invalid argument. Expected image:tag."] ∧
      (pull envDown "alpine" World.init).trace = []) ∧
    ((pull envDown "a:b:c" World.init).exit = some 1 ∧
      (pull envDown "a:b:c" World.init).stdout = ["Invalid argument. Expected image:tag."] ∧
      (pull envDown "a:b:c" World.init).trace = []) :=
  ⟨rfl,
   (pull_accepts_iff_exactly_one_colon envDown "alpine:latest" World.init rfl).1.mpr
     (by decide),
   (pull_accepts_iff_exactly_one_colon envDown "alpine" World.init rfl).2.2 (by decide),
   (pull_accepts_iff_exactly_one_colon envDown "a:b:c" World.init rfl).2.2 (by decide)⟩

/-- C2, as stated, fails: the lines `:`, `:latest` and `alpine:` are accepted
by `pull`, with an empty repository, an empty tag, or both. -/
theorem pull_accepts_empty_repository_or_tag :
    ((pull envDown ":" World.init).exit = none ∧
      (strings.Split ":" ':').getD 0 "" = "" ∧ (strings.Split ":" ':').getD 1 "" = "") ∧
    ((pull envDown ":latest" World.init).exit = none ∧
      (strings.Split ":latest" ':').getD 0 "" = "") ∧
    ((pull envDown "alpine:" World.init).exit = none ∧
      (strings.Split "alpine:" ':').getD 1 "" = "") ∧
    (pull envDown ":latest" World.init).trace =
      [{ url := "https://auth.docker.io/token?service=registry.docker.io&scope=repository::*&scope=repository(plugin)::*",
         headers := [] },
       manifestV1Request "" "latest" token.zero,
       manifestV2Request "" "latest" token.zero] := by
  decide

/-- C2, amended: for every line `pull` accepts, the line is the parsed
repository, one colon, and the parsed tag; neither part holds a colon; the
repository is empty exactly when the line starts with the colon and the tag
is empty exactly when the line ends with it. -/
theorem pull_accepted_parts (env : Transport) (image : String) (w : World)
    (hacc : (pull env image w).exit = none) :
    image = (strings.Split image ':').getD 0 "" ++ ":" ++ (strings.Split image ':').getD 1 "" ∧
    ':' ∉ ((strings.Split image ':').getD 0 "").data ∧
    ':' ∉ ((strings.Split image ':').getD 1 "").data ∧
    ((strings.Split image ':').getD 0 "" = "" ↔ image.data.head? = some ':') ∧
    ((strings.Split image ':').getD 1 "" = "" ↔ image.data.getLast? = some ':') := by
  have hlen : (strings.Split image ':').length = 2 := by
    by_contra hne
    rw [pull_exit] at hacc
    simp [hne] at hacc
  obtain ⟨a, b, hs, ha, hb⟩ := Split_two image hlen
  obtain ⟨h1, h2, h3⟩ := splitChars_two ':' image.data a b hs
  rw [ha, hb]
  refine ⟨?_, h2, h3, ?_, ?_⟩
  · apply String.ext
    simp [h1]
  · rw [h1]
    cases a with
    | nil => simp
    | cons x xs =>
      simp only [List.mem_cons, not_or] at h2
      have hx : x ≠ ':' := fun h => h2.1 h.symm
      constructor
      · intro h; exact absurd (congrArg String.data h) (by simp)
      · intro h; simp at h; exact absurd h hx
  · rw [h1, List.getLast?_append_of_ne_nil _ (List.cons_ne_nil _ _)]
    cases hb2 : b.reverse with
    | nil =>
      have : b = [] := by simpa using hb2
      subst this; simp
    | cons y ys =>
      have hbe : b = ys.reverse ++ [y] := by
        have := congrArg List.reverse hb2
        simpa using this
      have hy : y ≠ ':' := by
        intro h
        apply h3
        rw [hbe, h]
        simp
      constructor
      · intro h
        have := congrArg String.data h
        rw [hbe] at this
        simp at this
      · intro h
        rw [hbe, ← List.cons_append,
          List.getLast?_append_of_ne_nil _ (List.cons_ne_nil _ _)] at h
        simp at h
        exact absurd h hy

/-- Witness for C2, amended: the line `library/alpine:latest` is accepted and
splits as expected. -/
theorem pull_accepted_parts_witness :
    (pull envDown "library/alpine:latest" World.init).exit = none ∧
    "library/alpine:latest" =
      (strings.Split "library/alpine:latest" ':').getD 0 "" ++ ":" ++
        (strings.Split "library/alpine:latest" ':').getD 1 "" :=
  ⟨by decide,
   (pull_accepted_parts envDown "library/alpine:latest" World.init (by decide)).1⟩

theorem splitChars_of_not_mem (sep : Char) (l : List Char) (h : sep ∉ l) :
    splitChars sep l = [l] := by
  induction l with
  | nil => simp [splitChars]
  | cons x xs ih =>
    simp only [List.mem_cons, not_or] at h
    unfold splitChars
    rw [if_neg (Ne.symm h.1), ih h.2]

theorem splitChars_append_sep (sep : Char) (l r : List Char) (h : sep ∉ l) :
    splitChars sep (l ++ sep :: r) = l :: splitChars sep r := by
  induction l with
  | nil => simp [splitChars]
  | cons x xs ih =>
    simp only [List.mem_cons, not_or] at h
    rw [List.cons_append]
    conv_lhs => unfold splitChars
    rw [if_neg (Ne.symm h.1), ih h.2]

/-- The query of the token URL. -/
theorem rawQuery_tokenURL (repository : String) (hh : '#' ∉ repository.data) :
    rawQuery (tokenURL repository) =
      "service=registry.docker.io".data ++ '&' ::
        (("scope=repository:".data ++ repository.data ++ ":*".data) ++ '&' ::
          ("scope=repository(plugin):".data ++ repository.data ++ ":*".data)) := by
  have hall : ∀ x ∈ (tokenURL repository).data, (fun c => decide (c ≠ '#')) x = true := by
    intro x hx
    simp only [tokenURL, garant, String.data_append, List.mem_append] at hx
    simp only [ne_eq, decide_not, Bool.not_eq_true', decide_eq_false_iff_not]
    intro hxe
    subst hxe
    rcases hx with (((((hx | hx) | hx) | hx) | hx) | hx) | hx <;>
      first
      | exact hh hx
      | (revert hx; decide)
  unfold rawQuery
  rw [List.takeWhile_eq_self_iff.mpr hall]
  simp [tokenURL, garant]

/-- C3, as stated, fails: the lines `a&b:latest` and `a#b:latest` are accepted,
and the token URL of repository `a&b` has the scope values `repository:a` and
`repository(plugin):a` (and two parameters named `b:*`), while the token URL of
repository `a#b` has one scope parameter only. -/
theorem tokenURL_scope_fails_with_ampersand_or_hash :
    ((pull envDown "a&b:latest" World.init).exit = none ∧
      (strings.Split "a&b:latest" ':').getD 0 "" = "a&b" ∧
      queryValues (tokenURL "a&b") "scope" = ["repository:a", "repository(plugin):a"] ∧
      queryValues (tokenURL "a&b") "b:*" = ["", ""]) ∧
    ((pull envDown "a#b:latest" World.init).exit = none ∧
      (strings.Split "a#b:latest" ':').getD 0 "" = "a#b" ∧
      queryValues (tokenURL "a#b") "scope" = ["repository:a"]) := by
  decide

/-- C3, amended: for every repository that holds neither `&` nor `#` (it may
hold `=` or `?`), the token URL has exactly two `scope` parameters, with the
values `repository:<repository>:*` and `repository(plugin):<repository>:*`, and
exactly one `service` parameter, equal to `registry.docker.io`; and the only
request `getToken` can issue is the `GET` of that URL. -/
theorem tokenURL_query_parameters (env : Transport) (repository : String) (w : World)
    (hamp : '&' ∉ repository.data) (hhash : '#' ∉ repository.data) :
    queryValues (tokenURL repository) "scope" =
      ["repository:" ++ repository ++ ":*", "repository(plugin):" ++ repository ++ ":*"] ∧
    queryValues (tokenURL repository) "service" = ["registry.docker.io"] ∧
    ((getToken env repository w).2.2.trace = w.trace ∨
     (getToken env repository w).2.2.trace =
       w.trace ++ [{ url := tokenURL repository, headers := [] }]) := by
  have h1 : '&' ∉ "service=registry.docker.io".data := by decide
  have h2 : '&' ∉ "scope=repository:".data ++ repository.data ++ ":*".data := by
    simp only [List.mem_append, not_or]
    exact ⟨⟨by decide, hamp⟩, by decide⟩
  have h3 : '&' ∉ "scope=repository(plugin):".data ++ repository.data ++ ":*".data := by
    simp only [List.mem_append, not_or]
    exact ⟨⟨by decide, hamp⟩, by decide⟩
  have hq : queryParams (tokenURL repository) =
      [("service", "registry.docker.io"),
       ("scope", "repository:" ++ repository ++ ":*"),
       ("scope", "repository(plugin):" ++ repository ++ ":*")] := by
    unfold queryParams
    rw [rawQuery_tokenURL repository hhash, splitChars_append_sep _ _ _ h1,
      splitChars_append_sep _ _ _ h2, splitChars_of_not_mem _ _ h3]
    simp [String.ext_iff]
  refine ⟨?_, ?_, ?_⟩
  · unfold queryValues
    rw [hq]
    simp [List.filter]
  · unfold queryValues
    rw [hq]
    simp [List.filter]
  · rw [getToken_world]
    split
    · right; rfl
    · left; rfl

/-- Witness for C3, amended: the repositories `library/alpine` and `a=b?c`. -/
theorem tokenURL_query_parameters_witness :
    ('&' ∉ "library/alpine".data ∧ '#' ∉ "library/alpine".data ∧
      queryValues (tokenURL "library/alpine") "scope" =
        ["repository:" ++ "library/alpine" ++ ":*",
         "repository(plugin):" ++ "library/alpine" ++ ":*"]) ∧
    ('&' ∉ "a=b?c".data ∧ '#' ∉ "a=b?c".data ∧
      queryValues (tokenURL "a=b?c") "scope" =
        ["repository:" ++ "a=b?c" ++ ":*", "repository(plugin):" ++ "a=b?c" ++ ":*"]) :=
  ⟨⟨by decide, by decide,
    (tokenURL_query_parameters envDown "library/alpine" World.init
      (by decide) (by decide)).1⟩,
   ⟨by decide, by decide,
    (tokenURL_query_parameters envDown "a=b?c" World.init (by decide) (by decide)).1⟩⟩

theorem blobStepOk_zero (env : Transport) (repository : String) (tok : token) (l : layer)
    (ls : List layer) (hist : List Request) :
    blobStepOk env repository tok (l :: ls) hist 0 =
      (newRequestOk (blobURL repository l) &&
        match env hist (blobRequest repository tok l) with
        | Except.ok r => decide (r.StatusCode = 200)
        | Except.error _ => false) := by
  simp [blobStepOk]

theorem blobStepOk_succ (env : Transport) (repository : String) (tok : token) (l : layer)
    (ls : List layer) (hist : List Request) (k : Nat) :
    blobStepOk env repository tok (l :: ls) hist (k + 1) =
      blobStepOk env repository tok ls (hist ++ [blobRequest repository tok l]) k := by
  simp [blobStepOk]

/-- When every step goes through, every layer is requested, in order. -/
theorem getLayersLoop_all_ok (env : Transport) (repository : String) (tok : token)
    (ls : List layer) (w : World)
    (h : ∀ k, k < ls.length → blobStepOk env repository tok ls w.trace k = true) :
    (getLayersLoop env repository tok ls w).1 = none ∧
    (getLayersLoop env repository tok ls w).2.trace =
      w.trace ++ ls.map (blobRequest repository tok) := by
  induction ls generalizing w with
  | nil => simp [getLayersLoop]
  | cons l ls ih =>
    have h0 := h 0 (by simp)
    rw [blobStepOk_zero] at h0
    simp only [Bool.and_eq_true] at h0
    obtain ⟨hurl, hresp⟩ := h0
    unfold getLayersLoop
    simp only [hurl, if_true, logPrint_trace]
    cases he : env w.trace (blobRequest repository tok l) with
    | error e => rw [he] at hresp; simp at hresp
    | ok r =>
      rw [he] at hresp
      have hs : r.StatusCode = 200 := by simpa using hresp
      simp only [hs, ne_eq, not_true_eq_false, if_false]
      have := ih (((w.logPrint (LogLine.blobURL (blobURL repository l))).send
          (blobRequest repository tok l)).logPrint (LogLine.layerSize r.ContentLength))
        (by
          intro k hk
          have := h (k + 1) (by simpa using hk)
          rw [blobStepOk_succ] at this
          simpa using this)
      simpa using this

/-- When step `k` is the first that does not go through, `getLayers` returns
an error after the requests of the layers before `k`, and the request of
layer `k` itself when its URL was accepted. -/
theorem getLayersLoop_first_failure (env : Transport) (repository : String) (tok : token)
    (ls : List layer) (w : World) (k : Nat) (hk : k < ls.length)
    (hbefore : ∀ j, j < k → blobStepOk env repository tok ls w.trace j = true)
    (hfail : blobStepOk env repository tok ls w.trace k = false) :
    (getLayersLoop env repository tok ls w).1 ≠ none ∧
    ∃ l, ls[k]? = some l ∧
      (getLayersLoop env repository tok ls w).2.trace =
        w.trace ++ (ls.take k).map (blobRequest repository tok) ++
          (if newRequestOk (blobURL repository l) then [blobRequest repository tok l]
           else []) := by
  induction ls generalizing w k with
  | nil => simp at hk
  | cons l ls ih =>
    cases k with
    | zero =>
      rw [blobStepOk_zero] at hfail
      unfold getLayersLoop
      by_cases hurl : newRequestOk (blobURL repository l) = true
      · simp only [hurl, if_true, logPrint_trace, Bool.true_and] at hfail ⊢
        cases he : env w.trace (blobRequest repository tok l) with
        | error e => exact ⟨by simp, l, by simp, by simp [hurl]⟩
        | ok r =>
          rw [he] at hfail
          have hs : ¬ r.StatusCode = 200 := by simpa using hfail
          simp only [ne_eq, hs, not_false_eq_true, if_true]
          exact ⟨by simp, l, by simp, by simp [hurl]⟩
      · simp only [hurl]
        exact ⟨by simp, l, by simp, by simp [hurl]⟩
    | succ k =>
      have h0 := hbefore 0 (by omega)
      rw [blobStepOk_zero] at h0
      simp only [Bool.and_eq_true] at h0
      obtain ⟨hurl, hresp⟩ := h0
      unfold getLayersLoop
      simp only [hurl, if_true, logPrint_trace]
      cases he : env w.trace (blobRequest repository tok l) with
      | error e => rw [he] at hresp; simp at hresp
      | ok r =>
        rw [he] at hresp
        have hs : r.StatusCode = 200 := by simpa using hresp
        simp only [hs, ne_eq, not_true_eq_false, if_false]
        have := ih (((w.logPrint (LogLine.blobURL (blobURL repository l))).send
            (blobRequest repository tok l)).logPrint (LogLine.layerSize r.ContentLength))
          k (by simpa using hk)
          (by
            intro j hj
            have := hbefore (j + 1) (by omega)
            rw [blobStepOk_succ] at this
            simpa using this)
          (by
            rw [blobStepOk_succ] at hfail
            simpa using hfail)
        obtain ⟨h1, l2, h2, h3⟩ := this
        refine ⟨h1, l2, by simpa using h2, ?_⟩
        rw [h3]
        simp

/-- The function `pull` on an accepted line: the stages before `getLayers`,
then `getLayers` and the logging of its error. -/
theorem pull_eq_of_accepted (env : Transport) (image : String) (w : World)
    (h : (strings.Split image ':').length = 2) :
    pull env image w =
      (getLayers env ((strings.Split image ':').getD 0 "")
          (pullBeforeLayers env image w).m (pullBeforeLayers env image w).tok
          (pullBeforeLayers env image w).world).2.logErr LogLine.unableManifest
        (getLayers env ((strings.Split image ':').getD 0 "")
          (pullBeforeLayers env image w).m (pullBeforeLayers env image w).tok
          (pullBeforeLayers env image w).world).1 := by
  unfold pull pullBeforeLayers
  simp [h]

/-- A line after which the process goes on was split in two parts. -/
theorem length_Split_of_accepted (env : Transport) (image : String) (w : World)
    (hacc : (pull env image w).exit = none) : (strings.Split image ':').length = 2 := by
  by_contra hne
  rw [pull_exit] at hacc
  simp [hne] at hacc

/-- An error of `getManifestV2` comes with the zero manifest. -/
theorem getManifestV2_error_zero (env : Transport) (repository tag : String) (tok : token)
    (w : World) (h : (getManifestV2 env repository tag tok w).2.1 ≠ none) :
    (getManifestV2 env repository tag tok w).1 = manifest.zero := by
  unfold getManifestV2 at h ⊢
  by_cases hu : newRequestOk (manifestURL repository tag) = true
  · simp only [hu, if_true] at h ⊢
    cases he : env w.trace (manifestV2Request repository tag tok) with
    | error e => rfl
    | ok r =>
      rw [he] at h
      by_cases hs : r.StatusCode = 200
      · by_cases hd : (decodeManifest r.Body manifest.zero).2 = true
        · simp [hs, hd]
        · simp [hs, hd] at h
      · simp [hs]
  · simp [hu]

/-- C4, as stated, fails: with one layer whose digest is `%zz` and a network
that answers every request with status 200, `getLayers` returns an error and
issues no request at all, where C4 expects one request and no error. -/
theorem getLayers_rejected_digest_no_request :
    env200 Body.invalid []
        (blobRequest "library/alpine" { Token := "T" } { Digest := "%zz", Size := 1 }) =
      ok200 Body.invalid ∧
    (getLayers (env200 Body.invalid) "library/alpine"
      { Layers := [{ Digest := "%zz", Size := 1 }] } { Token := "T" } World.init).1 =
        some (Error.newRequest "https://registry-1.docker.io/v2/library/alpine/blobs/%zz") ∧
    (getLayers (env200 Body.invalid) "library/alpine"
      { Layers := [{ Digest := "%zz", Size := 1 }] } { Token := "T" } World.init).2.trace =
        [] := by
  refine ⟨rfl, by decide, by decide⟩

/-- C4, amended: `getLayers` requests the layers in the declared order, the
request of a layer being the `GET` of
`https://registry-1.docker.io/v2/<repository>/blobs/<digest>` with the header
`Authorization: Bearer <token>`.  When every layer has a URL that
`http.NewRequest` accepts and an answer with status 200, it issues the
requests of all the layers and returns no error.  Otherwise it returns an
error, and the requests issued are those of the layers before the first one
that fails, followed by the request of that layer when its URL was accepted
(no request is issued for a layer whose URL is rejected); no later layer is
requested. -/
theorem getLayers_requests (env : Transport) (repository : String) (m : manifest)
    (tok : token) (w : World) :
    (∀ l : layer, blobRequest repository tok l =
      { url := "https://registry-1.docker.io/v2/" ++ repository ++ "/blobs/" ++ l.Digest,
        headers := [("Authorization", "Bearer " ++ tok.Token)] }) ∧
    ((∀ k, k < m.Layers.length → blobStepOk env repository tok m.Layers w.trace k = true) →
      (getLayers env repository m tok w).1 = none ∧
      (getLayers env repository m tok w).2.trace =
        w.trace ++ m.Layers.map (blobRequest repository tok)) ∧
    (∀ k, k < m.Layers.length →
      (∀ j, j < k → blobStepOk env repository tok m.Layers w.trace j = true) →
      blobStepOk env repository tok m.Layers w.trace k = false →
      (getLayers env repository m tok w).1 ≠ none ∧
      ∃ l, m.Layers[k]? = some l ∧
        (getLayers env repository m tok w).2.trace =
          w.trace ++ (m.Layers.take k).map (blobRequest repository tok) ++
            (if newRequestOk (blobURL repository l) then [blobRequest repository tok l]
             else [])) := by
  refine ⟨fun l => ?_, ?_, ?_⟩
  · simp [blobRequest, blobURL, registry, String.ext_iff]
  · exact getLayersLoop_all_ok env repository tok m.Layers w
  · exact fun k hk hb hf => getLayersLoop_first_failure env repository tok m.Layers w k hk hb hf

/-- Witness for C4, amended: two layers, both answered with status 200; and
three layers, the second answered 404. -/
theorem getLayers_requests_witness :
    ((getLayers (envScript [ok200 Body.invalid, ok200 Body.invalid]) "library/alpine"
        { Layers := [{ Digest := "sha256:aa", Size := 1 }, { Digest := "sha256:bb", Size := 2 }] }
        { Token := "T" } World.init).1 = none ∧
      (getLayers (envScript [ok200 Body.invalid, ok200 Body.invalid]) "library/alpine"
        { Layers := [{ Digest := "sha256:aa", Size := 1 }, { Digest := "sha256:bb", Size := 2 }] }
        { Token := "T" } World.init).2.trace =
        World.init.trace ++
          [{ Digest := "sha256:aa", Size := 1 }, { Digest := "sha256:bb", Size := 2 }].map
            (blobRequest "library/alpine" { Token := "T" })) ∧
    ((getLayers (envScript [ok200 Body.invalid, notFound]) "library/alpine"
        { Layers := [{ Digest := "sha256:aa", Size := 1 }, { Digest := "sha256:bb", Size := 2 },
                     { Digest := "sha256:cc", Size := 3 }] }
        { Token := "T" } World.init).1 ≠ none ∧
      ∃ l, [({ Digest := "sha256:aa", Size := 1 } : layer), { Digest := "sha256:bb", Size := 2 },
            { Digest := "sha256:cc", Size := 3 }][1]? = some l ∧
        (getLayers (envScript [ok200 Body.invalid, notFound]) "library/alpine"
          { Layers := [{ Digest := "sha256:aa", Size := 1 }, { Digest := "sha256:bb", Size := 2 },
                       { Digest := "sha256:cc", Size := 3 }] }
          { Token := "T" } World.init).2.trace =
          World.init.trace ++
            (([{ Digest := "sha256:aa", Size := 1 }, { Digest := "sha256:bb", Size := 2 },
               { Digest := "sha256:cc", Size := 3 }] : List layer).take 1).map
              (blobRequest "library/alpine" { Token := "T" }) ++
            (if newRequestOk (blobURL "library/alpine" l) then
               [blobRequest "library/alpine" { Token := "T" } l]
             else [])) :=
  ⟨(getLayers_requests _ "library/alpine" _ { Token := "T" } World.init).2.1 (by decide),
   (getLayers_requests _ "library/alpine" _ { Token := "T" } World.init).2.2 1 (by decide)
     (by decide) (by decide)⟩

/-- The requests `getLayers` issues. -/
theorem getLayersLoop_trace (env : Transport) (repository : String) (tok : token)
    (ls : List layer) (w : World) :
    (getLayersLoop env repository tok ls w).2.trace =
      w.trace ++ blobGETs env repository tok ls w.trace := by
  induction ls generalizing w with
  | nil => simp [getLayersLoop, blobGETs]
  | cons l ls ih =>
    unfold getLayersLoop blobGETs
    by_cases hurl : newRequestOk (blobURL repository l) = true
    · simp only [hurl, if_true, logPrint_trace]
      cases he : env w.trace (blobRequest repository tok l) with
      | error e => simp
      | ok r =>
        by_cases hs : r.StatusCode = 200
        · simp only [hs, ne_eq, not_true_eq_false, if_false, if_true]
          rw [ih]
          simp
        · simp [hs]
    · simp [hurl]

/-- Every request `getLayers` issues is the blob request of a layer. -/
theorem blobGETs_mem (env : Transport) (repository : String) (tok : token)
    (ls : List layer) (hist : List Request) :
    ∀ b ∈ blobGETs env repository tok ls hist, ∃ l ∈ ls, b = blobRequest repository tok l := by
  induction ls generalizing hist with
  | nil => simp [blobGETs]
  | cons l ls ih =>
    intro b hb
    unfold blobGETs at hb
    by_cases hurl : newRequestOk (blobURL repository l) = true
    · simp only [hurl, if_true, List.mem_cons] at hb
      rcases hb with hb | hb
      · exact ⟨l, by simp, hb⟩
      · cases he : env hist (blobRequest repository tok l) with
        | error e => rw [he] at hb; simp at hb
        | ok r =>
          rw [he] at hb
          by_cases hs : r.StatusCode = 200
          · simp only [hs, if_true] at hb
            obtain ⟨l2, hl2, h2⟩ := ih _ b hb
            exact ⟨l2, by simp [hl2], h2⟩
          · simp [hs] at hb
    · simp [hurl] at hb

/-- No layer, no request and no error. -/
theorem getLayers_nil (env : Transport) (repository : String) (m : manifest) (tok : token)
    (w : World) (h : m.Layers = []) : getLayers env repository m tok w = (none, w) := by
  unfold getLayers
  rw [h]
  rfl

/-- C5: for every accepted line, when `getManifestV2` returns an error the
manifest it returns is the zero manifest, with no layer; and when the
manifest `pull` holds after the v2 fetch has no layer (after an error, or
after a successful fetch of a manifest without layers), `getLayers` issues no
request and returns no error, so that `pull` ends in the state it had when
`getManifestV2` had returned. -/
theorem pull_manifest_error_no_blob (env : Transport) (image : String) (w : World)
    (hacc : (pull env image w).exit = none) :
    (∀ (repository tag : String) (tok : token) (w1 : World),
      (getManifestV2 env repository tag tok w1).2.1 ≠ none →
      (getManifestV2 env repository tag tok w1).1.Layers = []) ∧
    ((pullBeforeLayers env image w).err ≠ none → (pullBeforeLayers env image w).m.Layers = []) ∧
    ((pullBeforeLayers env image w).m.Layers = [] →
      getLayers env ((strings.Split image ':').getD 0 "") (pullBeforeLayers env image w).m
          (pullBeforeLayers env image w).tok (pullBeforeLayers env image w).world =
        (none, (pullBeforeLayers env image w).world) ∧
      pull env image w = (pullBeforeLayers env image w).world ∧
      (pull env image w).trace = (pullBeforeLayers env image w).world.trace) := by
  have hlen := length_Split_of_accepted env image w hacc
  refine ⟨?_, ?_, ?_⟩
  · intro repository tag tok w1 h
    rw [getManifestV2_error_zero env repository tag tok w1 h]
    rfl
  · intro h
    unfold pullBeforeLayers at h ⊢
    simp only at h ⊢
    rw [getManifestV2_error_zero _ _ _ _ _ h]
    rfl
  · intro h
    have hl := getLayers_nil env ((strings.Split image ':').getD 0 "") _
      (pullBeforeLayers env image w).tok (pullBeforeLayers env image w).world h
    have hp : pull env image w = (pullBeforeLayers env image w).world := by
      rw [pull_eq_of_accepted env image w hlen, hl]
      rfl
    exact ⟨hl, hp, by rw [hp]⟩

/-- Witness for C5: the line `library/missing:latest` when the v2 manifest
request is answered 404: the token request and the two manifest requests, and nothing else. -/
theorem pull_manifest_error_no_blob_witness :
    (pull (envScript [ok200 (Body.json (JSON.obj [("token", JSON.str "T")])), notFound,
        notFound]) "library/missing:latest" World.init).exit = none ∧
    (pullBeforeLayers (envScript [ok200 (Body.json (JSON.obj [("token", JSON.str "T")])),
        notFound, notFound]) "library/missing:latest" World.init).err ≠ none ∧
    (pull (envScript [ok200 (Body.json (JSON.obj [("token", JSON.str "T")])), notFound,
        notFound]) "library/missing:latest" World.init).trace =
      [{ url := tokenURL "library/missing", headers := [] },
       manifestV1Request "library/missing" "latest" { Token := "T" },
       manifestV2Request "library/missing" "latest" { Token := "T" }] :=
  ⟨by decide, by decide,
   (((pull_manifest_error_no_blob _ "library/missing:latest" World.init (by decide)).2.2
      ((pull_manifest_error_no_blob _ "library/missing:latest" World.init (by decide)).2.1
        (by decide))).2.2).trans (by decide)⟩

/-- The result of `getToken` when its URL is well formed. -/
theorem getToken_of_ok (env : Transport) (repository : String) (w : World)
    (hurl : newRequestOk (tokenURL repository) = true) :
    (getToken env repository w).1 =
      tokenOf (env w.trace { url := tokenURL repository, headers := [] }) := by
  unfold getToken getJSON tokenOf
  simp only [hurl, if_true]
  cases env w.trace { url := tokenURL repository, headers := [] } with
  | error e => rfl
  | ok r =>
    by_cases hd : (decodeToken r.Body token.zero).2 = true
    · simp [hd]
    · simp [hd]

/-- An error of `getToken` comes with the zero token. -/
theorem getToken_error_zero (env : Transport) (repository : String) (w : World)
    (h : (getToken env repository w).2.1 ≠ none) :
    (getToken env repository w).1 = token.zero := by
  unfold getToken at h ⊢
  simp only at h ⊢
  cases hr : (getJSON env (tokenURL repository) token.zero w).2.1 with
  | none => rw [hr] at h; simp at h
  | some e => rfl

/-- The manifest `getManifestV2` returns when its URL is well formed. -/
theorem getManifestV2_of_ok (env : Transport) (repository tag : String) (tok : token)
    (w : World) (hurl : newRequestOk (manifestURL repository tag) = true) :
    (getManifestV2 env repository tag tok w).1 =
      manifestOf (env w.trace (manifestV2Request repository tag tok)) := by
  unfold getManifestV2 manifestOf
  simp only [hurl, if_true]
  cases env w.trace (manifestV2Request repository tag tok) with
  | error e => rfl
  | ok r =>
    by_cases hs : r.StatusCode = 200
    · by_cases hd : (decodeManifest r.Body manifest.zero).2 = true
      · simp [hs, hd]
      · simp [hs, hd]
    · simp [hs]

/-- The requests of `pull` on an accepted line: those made before `getLayers`,
then the blob requests. -/
theorem pull_trace_of_accepted (env : Transport) (image : String) (w : World)
    (h : (strings.Split image ':').length = 2) :
    (pull env image w).trace =
      (pullBeforeLayers env image w).world.trace ++
        blobGETs env ((strings.Split image ':').getD 0 "") (pullBeforeLayers env image w).tok
          (pullBeforeLayers env image w).m.Layers (pullBeforeLayers env image w).world.trace := by
  rw [pull_eq_of_accepted env image w h, logErr_trace, getLayers, getLayersLoop_trace]

/-- The requests `pull` makes before `getLayers` when the manifest URL is well
formed: what `getToken` issued, the v1 probe and the v2 request. -/
theorem pullBeforeLayers_trace (env : Transport) (image : String) (w : World)
    (hurl : newRequestOk (manifestURL ((strings.Split image ':').getD 0 "")
      ((strings.Split image ':').getD 1 "")) = true) :
    (pullBeforeLayers env image w).world.trace =
      (getToken env ((strings.Split image ':').getD 0 "")
          (w.logPrint (LogLine.pulling image))).2.2.trace ++
        [manifestV1Request ((strings.Split image ':').getD 0 "")
           ((strings.Split image ':').getD 1 "") (pullBeforeLayers env image w).tok,
         manifestV2Request ((strings.Split image ':').getD 0 "")
           ((strings.Split image ':').getD 1 "") (pullBeforeLayers env image w).tok] := by
  unfold pullBeforeLayers
  simp only [getManifestV2_world, getManifestV1Noop_world, hurl, if_true, send_trace,
    logErr_trace, List.append_assoc, List.singleton_append]

/-- C6, as stated, fails: the line `a%zz:latest` is accepted and, on a network
where every request fails, `getToken` returns an error; yet `pull` issues no
manifest request, because `http.NewRequest` rejects the manifest URL. -/
theorem pull_token_error_no_manifest_request :
    (pull envDown "a%zz:latest" World.init).exit = none ∧
    (getToken envDown "a%zz" (World.init.logPrint (LogLine.pulling "a%zz:latest"))).2.1 =
      some (Error.transport "timeout") ∧
    (pull envDown "a%zz:latest" World.init).trace =
      [{ url := tokenURL "a%zz", headers := [] }] := by
  decide

/-- C6, amended: for every accepted line whose manifest URL `http.NewRequest`
accepts, when `getToken` returns an error it returns the zero token, and
`pull` goes on: after what `getToken` issued come the v1 manifest probe and
the v2 manifest request, each with the header `Authorization: Bearer ` (empty
token), then the blob requests, if any, with the same header. -/
theorem pull_token_error_goes_on (env : Transport) (image : String) (w : World)
    (hacc : (pull env image w).exit = none)
    (hurl : newRequestOk (manifestURL ((strings.Split image ':').getD 0 "")
      ((strings.Split image ':').getD 1 "")) = true)
    (htok : (getToken env ((strings.Split image ':').getD 0 "")
      (w.logPrint (LogLine.pulling image))).2.1 ≠ none) :
    (getToken env ((strings.Split image ':').getD 0 "")
      (w.logPrint (LogLine.pulling image))).1 = token.zero ∧
    (∃ blobs : List Request,
      (pull env image w).trace =
        (getToken env ((strings.Split image ':').getD 0 "")
            (w.logPrint (LogLine.pulling image))).2.2.trace ++
          [manifestV1Request ((strings.Split image ':').getD 0 "")
             ((strings.Split image ':').getD 1 "") token.zero,
           manifestV2Request ((strings.Split image ':').getD 0 "")
             ((strings.Split image ':').getD 1 "") token.zero] ++ blobs ∧
      ∀ b ∈ blobs, b.headers = [("Authorization", "Bearer ")]) ∧
    (manifestV1Request ((strings.Split image ':').getD 0 "")
        ((strings.Split image ':').getD 1 "") token.zero).headers =
      [("Authorization", "Bearer "),
       ("Accept", "application/vnd.docker.distribution.manifest.v1+json")] ∧
    (manifestV2Request ((strings.Split image ':').getD 0 "")
        ((strings.Split image ':').getD 1 "") token.zero).headers =
      [("Authorization", "Bearer "),
       ("Accept", "application/vnd.docker.distribution.manifest.v2+json")] := by
  have hlen := length_Split_of_accepted env image w hacc
  have hz := getToken_error_zero env _ _ htok
  have htk : (pullBeforeLayers env image w).tok = token.zero := hz
  refine ⟨hz, ?_, rfl, rfl⟩
  refine ⟨blobGETs env ((strings.Split image ':').getD 0 "") token.zero
    (pullBeforeLayers env image w).m.Layers (pullBeforeLayers env image w).world.trace, ?_, ?_⟩
  · rw [pull_trace_of_accepted env image w hlen, htk,
      pullBeforeLayers_trace env image w hurl, htk]
  · intro b hb
    obtain ⟨l, _, hl⟩ := blobGETs_mem _ _ _ _ _ b hb
    rw [hl]
    rfl

/-- Witness for C6, amended: the line `library/alpine:latest` on a network
where every request fails. -/
theorem pull_token_error_goes_on_witness :
    (pull envDown "library/alpine:latest" World.init).exit = none ∧
    (getToken envDown "library/alpine"
      (World.init.logPrint (LogLine.pulling "library/alpine:latest"))).1 = token.zero ∧
    (pull envDown "library/alpine:latest" World.init).trace =
      [{ url := tokenURL "library/alpine", headers := [] },
       manifestV1Request "library/alpine" "latest" token.zero,
       manifestV2Request "library/alpine" "latest" token.zero] :=
  ⟨by decide,
   (pull_token_error_goes_on envDown "library/alpine:latest" World.init (by decide)
     (by decide) (by decide)).1,
   by decide⟩

/-- The token `pull` uses when the token URL is well formed. -/
theorem pullBeforeLayers_tok (env : Transport) (image : String) (w : World)
    (hurlT : newRequestOk (tokenURL ((strings.Split image ':').getD 0 "")) = true) :
    (pullBeforeLayers env image w).tok =
      tokenOf (env w.trace
        { url := tokenURL ((strings.Split image ':').getD 0 ""), headers := [] }) := by
  unfold pullBeforeLayers
  simp only
  rw [getToken_of_ok env _ _ hurlT]
  rfl

/-- The manifest `pull` holds when the token and manifest URLs are well formed. -/
theorem pullBeforeLayers_m (env : Transport) (image : String) (w : World)
    (hurlT : newRequestOk (tokenURL ((strings.Split image ':').getD 0 "")) = true)
    (hurlM : newRequestOk (manifestURL ((strings.Split image ':').getD 0 "")
      ((strings.Split image ':').getD 1 "")) = true) :
    (pullBeforeLayers env image w).m =
      manifestOf (env
        (w.trace ++
          [{ url := tokenURL ((strings.Split image ':').getD 0 ""), headers := [] },
           manifestV1Request ((strings.Split image ':').getD 0 "")
             ((strings.Split image ':').getD 1 "") (pullBeforeLayers env image w).tok])
        (manifestV2Request ((strings.Split image ':').getD 0 "")
          ((strings.Split image ':').getD 1 "") (pullBeforeLayers env image w).tok)) := by
  unfold pullBeforeLayers
  simp only
  rw [getManifestV2_of_ok env _ _ _ _ hurlM]
  simp only [getManifestV1Noop_world, getToken_world, hurlM, hurlT, if_true, send_trace,
    logErr_trace, logPrint_trace, List.append_assoc, List.singleton_append]

/-- The requests of `pull` on an accepted line with well formed URLs. -/
theorem pull_trace_wellformed (env : Transport) (image : String) (w : World)
    (hlen : (strings.Split image ':').length = 2)
    (hurlT : newRequestOk (tokenURL ((strings.Split image ':').getD 0 "")) = true)
    (hurlM : newRequestOk (manifestURL ((strings.Split image ':').getD 0 "")
      ((strings.Split image ':').getD 1 "")) = true) :
    (pull env image w).trace =
      w.trace ++ imageRequests env w.trace ((strings.Split image ':').getD 0 "")
        ((strings.Split image ':').getD 1 "") := by
  rw [pull_trace_of_accepted env image w hlen, pullBeforeLayers_m env image w hurlT hurlM,
    pullBeforeLayers_trace env image w hurlM, pullBeforeLayers_tok env image w hurlT]
  unfold imageRequests
  simp only [getToken_world, hurlT, if_true, send_trace, logPrint_trace, List.append_assoc,
    List.singleton_append, List.cons_append, List.nil_append]

theorem length_pos_iff_ne_empty (line : String) : line.length > 0 ↔ line ≠ "" := by
  rw [String.length, gt_iff_lt, List.length_pos, ne_eq, ne_eq, String.ext_iff]

/-- The loop of `main` over lines that are all empty or accepted: every
non-empty line is pulled, in order, whatever the earlier pulls met. -/
theorem scanLoop_of_valid (env : Transport) (lines : List String) (w : World)
    (hrun : w.exit = none)
    (hvalid : ∀ line ∈ lines, line ≠ "" → strings.Count line ':' = 1) :
    scanLoop env lines w =
      (lines.filter (fun line => decide (line ≠ ""))).foldl (fun w1 line => pull env line w1) w ∧
    (scanLoop env lines w).exit = none := by
  induction lines generalizing w with
  | nil => exact ⟨rfl, hrun⟩
  | cons line rest ih =>
    unfold scanLoop
    by_cases he : line = ""
    · have hl : ¬ line.length > 0 := by rw [length_pos_iff_ne_empty]; simpa using he
      simp only [hl, if_false]
      have := ih w hrun (fun l hl2 => hvalid l (List.mem_cons_of_mem _ hl2))
      simpa [List.filter, he] using this
    · have hl : line.length > 0 := (length_pos_iff_ne_empty line).mpr he
      have hc := hvalid line (List.mem_cons_self _ _) he
      have hex : (pull env line w).exit = none := by
        rw [pull_exit, length_Split, hc]
        simpa using hrun
      simp only [hl, if_true, hex]
      have := ih (pull env line w) hex (fun l hl2 => hvalid l (List.mem_cons_of_mem _ hl2))
      simpa [List.filter, he] using this

/-- The requests of the loop of `main` over valid lines with well formed
URLs. -/
theorem scanLoop_trace (env : Transport) (lines : List String) (w : World)
    (hrun : w.exit = none)
    (hvalid : ∀ line ∈ lines, line ≠ "" →
      strings.Count line ':' = 1 ∧
      newRequestOk (tokenURL ((strings.Split line ':').getD 0 "")) = true ∧
      newRequestOk (manifestURL ((strings.Split line ':').getD 0 "")
        ((strings.Split line ':').getD 1 "")) = true) :
    (scanLoop env lines w).trace = w.trace ++ fileRequests env lines w.trace := by
  induction lines generalizing w with
  | nil => simp [scanLoop, fileRequests]
  | cons line rest ih =>
    unfold scanLoop fileRequests
    by_cases he : line = ""
    · have hl : ¬ line.length > 0 := by rw [length_pos_iff_ne_empty]; simpa using he
      simp only [hl, if_false, he, if_true]
      exact ih w hrun (fun l hl2 => hvalid l (List.mem_cons_of_mem _ hl2))
    · have hl : line.length > 0 := (length_pos_iff_ne_empty line).mpr he
      obtain ⟨hc, hT, hM⟩ := hvalid line (List.mem_cons_self _ _) he
      have hlen : (strings.Split line ':').length = 2 := by rw [length_Split, hc]
      have hex : (pull env line w).exit = none := by
        rw [pull_exit]
        simpa [hlen] using hrun
      simp only [hl, if_true, hex, he, if_false]
      rw [ih (pull env line w) hex (fun l hl2 => hvalid l (List.mem_cons_of_mem _ hl2)),
        pull_trace_wellformed env line w hlen hT hM, List.append_assoc]

theorem fileRequests_all_empty (env : Transport) (lines : List String) (hist : List Request)
    (h : ∀ line ∈ lines, line = "") : fileRequests env lines hist = [] := by
  induction lines with
  | nil => rfl
  | cons line rest ih =>
    unfold fileRequests
    rw [if_pos (h line (List.mem_cons_self _ _))]
    exact ih (fun l hl => h l (List.mem_cons_of_mem _ hl))

/-- The exit state after the loop of `main`. -/
theorem scanLoop_exit (env : Transport) (lines : List String) (w : World)
    (hrun : w.exit = none) :
    ((scanLoop env lines w).exit = none ∨ (scanLoop env lines w).exit = some 1) ∧
    ((scanLoop env lines w).exit = none ↔
      ∀ line ∈ lines, line ≠ "" → strings.Count line ':' = 1) := by
  induction lines generalizing w with
  | nil => simp [scanLoop, hrun]
  | cons line rest ih =>
    unfold scanLoop
    by_cases he : line = ""
    · have hl : ¬ line.length > 0 := by rw [length_pos_iff_ne_empty]; simpa using he
      simp only [hl, if_false]
      have := ih w hrun
      simpa [he] using this
    · have hl : line.length > 0 := (length_pos_iff_ne_empty line).mpr he
      simp only [hl, if_true]
      by_cases hc : strings.Count line ':' = 1
      · have hex : (pull env line w).exit = none := by
          rw [pull_exit, length_Split, hc]
          simpa using hrun
        simp only [hex]
        have := ih (pull env line w) hex
        simpa [he, hc] using this
      · have hex : (pull env line w).exit = some 1 := by
          rw [pull_exit, length_Split]
          have : ¬ strings.Count line ':' + 1 = 2 := by omega
          simp [this]
        simp only [hex]
        refine ⟨by simp, ?_⟩
        constructor
        · intro h; simp at h
        · intro h
          exact absurd (h line (List.mem_cons_self _ _) he) hc

/-- The exit state of `main` after `flag.Parse()`. -/
theorem mainWithFile_exit (fs : String → Except String File) (env : Transport) (fileStr : String) :
    ((mainWithFile fs env fileStr).exit = none ∨ (mainWithFile fs env fileStr).exit = some 1) ∧
    ((mainWithFile fs env fileStr).exit = none ↔
      fileStr ≠ "" ∧ ∃ file, fs fileStr = Except.ok file ∧ file.scanErr = none ∧
        ∀ line ∈ file.lines, line ≠ "" → strings.Count line ':' = 1) := by
  unfold mainWithFile
  by_cases hf : fileStr = ""
  · simp [hf, World.fatal]
  · simp only [hf, if_false, ne_eq, not_false_eq_true, true_and]
    cases ho : fs fileStr with
    | error e => simp [World.fatal]
    | ok file =>
      obtain ⟨h1, h2⟩ := scanLoop_exit env file.lines World.init rfl
      simp only [Except.ok.injEq, exists_eq_left']
      cases hx : (scanLoop env file.lines World.init).exit with
      | some c =>
        rw [hx] at h1 h2
        simp only [hx]
        refine ⟨h1, ?_⟩
        constructor
        · intro h; simp at h
        · intro h; exact absurd (h2.mpr h.2) (by simp)
      | none =>
        rw [hx] at h2
        have hv := h2.mp rfl
        cases hs : file.scanErr with
        | some t => simp [World.fatal]
        | none =>
          simp only [hx, true_and, true_iff]
          exact ⟨Or.inl trivial, hv⟩

theorem blobGETs_congr (env env2 : Transport) (repository : String) (tok : token)
    (h : ∀ hist req, isV1Probe req = false → env2 hist req = env hist req)
    (ls : List layer) (hist : List Request) :
    blobGETs env2 repository tok ls hist = blobGETs env repository tok ls hist := by
  induction ls generalizing hist with
  | nil => rfl
  | cons l ls ih =>
    unfold blobGETs
    rw [h hist (blobRequest repository tok l) (by simp [isV1Probe, blobRequest])]
    simp only [ih]

theorem imageRequests_congr (env env2 : Transport)
    (h : ∀ hist req, isV1Probe req = false → env2 hist req = env hist req)
    (hist : List Request) (repository tag : String) :
    imageRequests env2 hist repository tag = imageRequests env hist repository tag := by
  unfold imageRequests
  simp only
  rw [h hist { url := tokenURL repository, headers := [] } (by simp [isV1Probe])]
  rw [h _ (manifestV2Request repository tag _) (by simp [isV1Probe, manifestV2Request])]
  rw [blobGETs_congr env env2 repository _ h]

theorem fileRequests_congr (env env2 : Transport)
    (h : ∀ hist req, isV1Probe req = false → env2 hist req = env hist req)
    (lines : List String) (hist : List Request) :
    fileRequests env2 lines hist = fileRequests env lines hist := by
  induction lines generalizing hist with
  | nil => rfl
  | cons line rest ih =>
    unfold fileRequests
    simp only [imageRequests_congr env env2 h, ih]

/-- The function `main` once the command line is parsed. -/
theorem main_of_parsed (fs : String → Except String File) (env : Transport)
    (args : List String) (fileStr : String) (h : flagParse args = FlagResult.parsed fileStr) :
    main fs env args = mainWithFile fs env fileStr := by
  unfold main mainWithFile
  rw [h]

/-- The function `main` when `flag.Parse()` terminates the process. -/
theorem main_of_flag_exit (fs : String → Except String File) (env : Transport)
    (args : List String) (code : Nat) (h : flagParse args = FlagResult.exit code) :
    main fs env args = { World.init with exit := some code } := by
  unfold main
  rw [h]

/-- The exit codes of `flag.Parse()`. -/
theorem parseArgs_codes (needValue : Bool) (args : List String) (fileStr : String)
    (code : Nat) (h : parseArgs needValue args fileStr = FlagResult.exit code) :
    code = 0 ∨ code = 2 := by
  induction args generalizing needValue fileStr with
  | nil =>
    cases needValue
    · unfold parseArgs at h
      injection h
    · unfold parseArgs at h
      injection h with h
      omega
  | cons s rest ih =>
    cases needValue
    · unfold parseArgs at h
      simp only at h
      repeat' split at h
      all_goals
        first
        | exact ih _ _ h
        | (injection h with h; omega)
        | injection h
    · unfold parseArgs at h
      exact ih _ _ h

/-- The loop of `main` runs `pull` on the lines `linesPulled` gives, in order,
whatever the pulls meet. -/
theorem scanLoop_eq_foldl (env : Transport) (lines : List String) (w : World)
    (hrun : w.exit = none) :
    scanLoop env lines w = (linesPulled lines).foldl (fun w1 line => pull env line w1) w := by
  induction lines generalizing w with
  | nil => rfl
  | cons line rest ih =>
    unfold scanLoop linesPulled
    by_cases he : line = ""
    · have hl : ¬ line.length > 0 := by rw [length_pos_iff_ne_empty]; simpa using he
      simp only [hl, if_false, he, if_true]
      exact ih w hrun
    · have hl : line.length > 0 := (length_pos_iff_ne_empty line).mpr he
      simp only [hl, if_true, he, if_false]
      by_cases hc : strings.Count line ':' = 1
      · have hex : (pull env line w).exit = none := by
          rw [pull_exit, length_Split, hc]
          simpa using hrun
        simp only [hex, hc, if_true, List.foldl_cons]
        exact ih (pull env line w) hex
      · have hex : (pull env line w).exit = some 1 := by
          rw [pull_exit, length_Split]
          have : ¬ strings.Count line ':' + 1 = 2 := by omega
          simp [this]
        simp only [hex, hc, if_false, List.foldl_cons, List.foldl_nil]

/-- When every non-empty line is valid, every non-empty line is pulled. -/
theorem linesPulled_of_valid (lines : List String)
    (hvalid : ∀ line ∈ lines, line ≠ "" → strings.Count line ':' = 1) :
    linesPulled lines = lines.filter (fun line => decide (line ≠ "")) := by
  induction lines with
  | nil => rfl
  | cons line rest ih =>
    unfold linesPulled
    have ihr := ih (fun l hl => hvalid l (List.mem_cons_of_mem _ hl))
    by_cases he : line = ""
    · simp [he, ihr]
    · have hc := hvalid line (List.mem_cons_self _ _) he
      simp [he, hc, ihr]

/-- The requests of `main` after `flag.Parse()`, over valid lines with well
formed URLs. -/
theorem mainWithFile_trace (fs : String → Except String File) (env : Transport)
    (fileStr : String) (file : File) (hflag : fileStr ≠ "")
    (hopen : fs fileStr = Except.ok file)
    (hvalid : ∀ line ∈ file.lines, line ≠ "" →
      strings.Count line ':' = 1 ∧
      newRequestOk (tokenURL ((strings.Split line ':').getD 0 "")) = true ∧
      newRequestOk (manifestURL ((strings.Split line ':').getD 0 "")
        ((strings.Split line ':').getD 1 "")) = true) :
    (mainWithFile fs env fileStr).trace = fileRequests env file.lines [] := by
  have ht := scanLoop_trace env file.lines World.init rfl hvalid
  unfold mainWithFile
  simp only [hflag, if_false, hopen]
  have hw : (scanLoop env file.lines World.init).trace = fileRequests env file.lines [] := by
    rw [ht]; rfl
  cases hx : (scanLoop env file.lines World.init).exit with
  | some c => exact hw
  | none =>
    cases hs : file.scanErr with
    | some t => exact hw
    | none => exact hw

/-- An example of repeated `layers` members: the third array is decoded over
the element the second one cut off, which keeps its digest. -/
theorem decodeManifest_repeated_layers :
    decodeManifest (Body.json (JSON.obj
      [("layers", JSON.arr [JSON.obj [("digest", JSON.str "a")],
                            JSON.obj [("digest", JSON.str "b")]]),
       ("layers", JSON.arr [JSON.obj [("size", JSON.num 1)]]),
       ("layers", JSON.arr [JSON.obj [], JSON.obj [("size", JSON.num 2)]])])) manifest.zero =
      ({ Layers := [{ Digest := "a", Size := 1 }, { Digest := "b", Size := 2 }] }, false) := by
  decide

/-- C7, as stated, fails: the file whose only line is `a%zz:latest` has no
invalid line, yet the program, run on it with `-file images.txt`, issues the
token request only: no v1 probe and no v2 manifest request follow, because
`http.NewRequest` rejects the manifest URL. -/
theorem main_valid_line_without_manifest_request :
    strings.Count "a%zz:latest" ':' = 1 ∧
    (main (fsOne { lines := ["a%zz:latest"], scanErr := none }) envHub
      ["-file", "images.txt"]).trace =
      [{ url := tokenURL "a%zz", headers := [] }] := by
  decide

/-- C7, amended: for every run of the program on an input file (the command
line parses and names the file, and the file opens) whose non-empty lines all
hold exactly one colon and give a token URL and a manifest URL that
`http.NewRequest` accepts, the requests the program issues are the
concatenation, in file order over the non-empty lines, of the token request of
the repository, the v1 manifest probe, the v2 manifest request and the blob
requests of the manifest returned (in layer order, stopping after the first
that fails and before a layer whose URL is rejected); a file with no non-empty
line produces no request; and two networks that differ only in their answers
to the v1 probes give the same requests. -/
theorem main_requests (fs : String → Except String File) (env : Transport)
    (args : List String) (fileStr : String) (file : File)
    (hparse : flagParse args = FlagResult.parsed fileStr) (hflag : fileStr ≠ "")
    (hopen : fs fileStr = Except.ok file)
    (hvalid : ∀ line ∈ file.lines, line ≠ "" →
      strings.Count line ':' = 1 ∧
      newRequestOk (tokenURL ((strings.Split line ':').getD 0 "")) = true ∧
      newRequestOk (manifestURL ((strings.Split line ':').getD 0 "")
        ((strings.Split line ':').getD 1 "")) = true) :
    (main fs env args).trace = fileRequests env file.lines [] ∧
    ((∀ line ∈ file.lines, line = "") → (main fs env args).trace = []) ∧
    (∀ env2 : Transport,
      (∀ hist req, isV1Probe req = false → env2 hist req = env hist req) →
      (main fs env2 args).trace = (main fs env args).trace) := by
  have hmain : ∀ e : Transport, (main fs e args).trace = fileRequests e file.lines [] := by
    intro e
    rw [main_of_parsed fs e args fileStr hparse]
    exact mainWithFile_trace fs e fileStr file hflag hopen hvalid
  refine ⟨hmain env, fun h => by rw [hmain, fileRequests_all_empty env _ _ h], ?_⟩
  intro env2 h
  rw [hmain env2, hmain env, fileRequests_congr env env2 h]

/-- Witness for C7, amended: three valid lines (and an empty one) against a
registry that answers every request with status 200 and manifests of two
layers: 3 token requests, 3 v1 probes, 3 v2 requests and 6 blob requests, in
file order; and an empty file. -/
theorem main_requests_witness :
    (main (fsOne { lines := ["library/alpine:latest", "", "library/busybox:1.36",
        "library/redis:7"], scanErr := none }) envHub ["-file", "images.txt"]).trace =
      fileRequests envHub ["library/alpine:latest", "", "library/busybox:1.36",
        "library/redis:7"] [] ∧
    fileRequests envHub ["library/alpine:latest", "", "library/busybox:1.36",
        "library/redis:7"] [] =
      [{ url := tokenURL "library/alpine", headers := [] },
       manifestV1Request "library/alpine" "latest" { Token := "T" },
       manifestV2Request "library/alpine" "latest" { Token := "T" },
       blobRequest "library/alpine" { Token := "T" } { Digest := "sha256:aaaa", Size := 2797541 },
       blobRequest "library/alpine" { Token := "T" } { Digest := "sha256:bbbb", Size := 1024 },
       { url := tokenURL "library/busybox", headers := [] },
       manifestV1Request "library/busybox" "1.36" { Token := "T" },
       manifestV2Request "library/busybox" "1.36" { Token := "T" },
       blobRequest "library/busybox" { Token := "T" } { Digest := "sha256:aaaa", Size := 2797541 },
       blobRequest "library/busybox" { Token := "T" } { Digest := "sha256:bbbb", Size := 1024 },
       { url := tokenURL "library/redis", headers := [] },
       manifestV1Request "library/redis" "7" { Token := "T" },
       manifestV2Request "library/redis" "7" { Token := "T" },
       blobRequest "library/redis" { Token := "T" } { Digest := "sha256:aaaa", Size := 2797541 },
       blobRequest "library/redis" { Token := "T" } { Digest := "sha256:bbbb", Size := 1024 }] ∧
    (main (fsOne { lines := [], scanErr := none }) envHub ["-file", "images.txt"]).trace = [] :=
  ⟨(main_requests (fsOne { lines := ["library/alpine:latest", "", "library/busybox:1.36",
        "library/redis:7"], scanErr := none }) envHub ["-file", "images.txt"] "images.txt" _
      rfl (by decide) rfl (by decide)).1,
   by decide,
   (main_requests (fsOne { lines := [], scanErr := none }) envHub ["-file", "images.txt"]
      "images.txt" _ rfl (by decide) rfl (by decide)).2.1 (by decide)⟩

/-- C8, as stated, fails: with a readable file of valid lines, the command
line `-file images.txt` exits with 0 but `-file images.txt -bogus` exits with
2, the `-file` flag being non-empty in both; and the command line `-h`, with
no `-file` flag at all, exits with 0. -/
theorem flag_parse_decides_exit_code :
    (main (fsOne { lines := ["library/alpine:latest"], scanErr := none }) envHub
      ["-file", "images.txt"]).exitCode = 0 ∧
    (main (fsOne { lines := ["library/alpine:latest"], scanErr := none }) envHub
      ["-file", "images.txt", "-bogus"]).exitCode = 2 ∧
    (main (fsOne { lines := ["library/alpine:latest"], scanErr := none }) envHub
      ["-h"]).exitCode = 0 := by
  decide

/-- C8, amended: the exit code of the process is 0 exactly when `flag.Parse`
ends the process on an undefined `-h` or `-help` flag (exit code 0), or the
command line parses, the `-file` flag is not empty, the file opens, the
scanner reports no error and every non-empty line holds exactly one colon; a
command line that does not parse exits with 2 and every other failure of the
setup or of a line with 1.  The exit code does not depend on the network: no
token, manifest or blob failure changes it.  And once the file is open, `pull`
runs on the non-empty lines in file order, up to and including the first
invalid one, whatever the earlier pulls met: on every non-empty line when all
are valid. -/
theorem main_exit_code (fs : String → Except String File) (env : Transport)
    (args : List String) :
    ((main fs env args).exitCode = 0 ↔
      flagParse args = FlagResult.exit 0 ∨
      ∃ fileStr, flagParse args = FlagResult.parsed fileStr ∧ fileStr ≠ "" ∧
        ∃ file, fs fileStr = Except.ok file ∧ file.scanErr = none ∧
          ∀ line ∈ file.lines, line ≠ "" → strings.Count line ':' = 1) ∧
    ((main fs env args).exitCode = 0 ∨ (main fs env args).exitCode = 1 ∨
      (main fs env args).exitCode = 2) ∧
    (∀ code, flagParse args = FlagResult.exit code → (main fs env args).exitCode = code) ∧
    (∀ env2 : Transport, (main fs env2 args).exitCode = (main fs env args).exitCode) ∧
    (∀ fileStr file, flagParse args = FlagResult.parsed fileStr → fileStr ≠ "" →
      fs fileStr = Except.ok file →
      ((∀ line ∈ file.lines, line ≠ "" → strings.Count line ':' = 1) →
        linesPulled file.lines = file.lines.filter (fun line => decide (line ≠ "")) ∧
        main fs env args =
          match file.scanErr with
          | some text =>
            ((linesPulled file.lines).foldl (fun w line => pull env line w) World.init).fatal
              text
          | none =>
            (linesPulled file.lines).foldl (fun w line => pull env line w) World.init) ∧
      (¬ (∀ line ∈ file.lines, line ≠ "" → strings.Count line ':' = 1) →
        main fs env args =
          (linesPulled file.lines).foldl (fun w line => pull env line w) World.init)) := by
  have hwf : ∀ (e : Transport) (fileStr : String),
      ((mainWithFile fs e fileStr).exitCode = 0 ↔ (mainWithFile fs e fileStr).exit = none) ∧
      ((mainWithFile fs e fileStr).exitCode = 0 ∨ (mainWithFile fs e fileStr).exitCode = 1) := by
    intro e fileStr
    rcases (mainWithFile_exit fs e fileStr).1 with h | h <;> simp [World.exitCode, h]
  have hflagexit : ∀ (e : Transport) (code : Nat), flagParse args = FlagResult.exit code →
      (main fs e args).exitCode = code := by
    intro e code h
    rw [main_of_flag_exit fs e args code h]
    rfl
  refine ⟨?_, ?_, hflagexit env, ?_, ?_⟩
  · cases hp : flagParse args with
    | exit code =>
      rw [hflagexit env code hp]
      constructor
      · intro h; left; rw [h]
      · intro h
        rcases h with h | ⟨f, h, _⟩
        · injection h
        · simp at h
    | parsed fileStr =>
      rw [main_of_parsed fs env args fileStr hp, (hwf env fileStr).1,
        (mainWithFile_exit fs env fileStr).2]
      constructor
      · intro h; right; exact ⟨fileStr, rfl, h⟩
      · intro h
        rcases h with h | ⟨f, h, h2⟩
        · simp at h
        · injection h with h
          subst h
          exact h2
  · cases hp : flagParse args with
    | exit code =>
      rw [hflagexit env code hp]
      rcases parseArgs_codes false args "" code hp with h | h
      · left; exact h
      · right; right; exact h
    | parsed fileStr =>
      rw [main_of_parsed fs env args fileStr hp]
      rcases (hwf env fileStr).2 with h | h
      · left; exact h
      · right; left; exact h
  · intro env2
    cases hp : flagParse args with
    | exit code => rw [hflagexit env code hp, hflagexit env2 code hp]
    | parsed fileStr =>
      rw [main_of_parsed fs env args fileStr hp, main_of_parsed fs env2 args fileStr hp]
      have h1 := (hwf env fileStr).1.trans (mainWithFile_exit fs env fileStr).2
      have h2 := (hwf env2 fileStr).1.trans (mainWithFile_exit fs env2 fileStr).2
      have h12 := h2.trans h1.symm
      rcases (hwf env fileStr).2 with ha | ha <;> rcases (hwf env2 fileStr).2 with hb | hb
      · rw [ha, hb]
      · rw [h12.mpr ha] at hb; simp at hb
      · rw [h12.mp hb] at ha; simp at ha
      · rw [ha, hb]
  · intro fileStr file hp hflag hopen
    have hs := scanLoop_eq_foldl env file.lines World.init rfl
    have hx := (scanLoop_exit env file.lines World.init rfl)
    rw [main_of_parsed fs env args fileStr hp]
    constructor
    · intro hvalid
      refine ⟨linesPulled_of_valid file.lines hvalid, ?_⟩
      have hnone := hx.2.mpr hvalid
      unfold mainWithFile
      simp only [hflag, if_false, hopen, hnone]
      rw [hs]
    · intro hinvalid
      have hne : (scanLoop env file.lines World.init).exit = some 1 := by
        rcases hx.1 with h | h
        · exact absurd (hx.2.mp h) hinvalid
        · exact h
      unfold mainWithFile
      simp only [hflag, if_false, hopen, hne]
      rw [hs]

/-- Witness for C8, amended: a file of two valid lines exits with 0 on a
network where every request fails; a file with the line `a:b:c` does not; nor
does an empty `-file` flag; and `pull` runs on the lines up to `a:b:c`. -/
theorem main_exit_code_witness :
    (main (fsOne { lines := ["library/alpine:latest", "", "library/missing:latest"], scanErr := none })
      envDown ["-file", "images.txt"]).exitCode = 0 ∧
    ¬ (main (fsOne { lines := ["library/alpine:latest", "a:b:c", "library/redis:7"], scanErr := none })
      envHub ["-file", "images.txt"]).exitCode = 0 ∧
    ¬ (main (fsOne { lines := [], scanErr := none }) envHub ["-file", ""]).exitCode = 0 ∧
    main (fsOne { lines := ["library/alpine:latest", "a:b:c", "library/redis:7"], scanErr := none })
        envHub ["-file", "images.txt"] =
      (linesPulled ["library/alpine:latest", "a:b:c", "library/redis:7"]).foldl
        (fun w line => pull envHub line w) World.init ∧
    linesPulled ["library/alpine:latest", "a:b:c", "library/redis:7"] =
      ["library/alpine:latest", "a:b:c"] := by
  refine ⟨(main_exit_code _ envDown ["-file", "images.txt"]).1.mpr
      (Or.inr ⟨"images.txt", rfl, by decide, _, rfl, rfl, by decide⟩), ?_, ?_, ?_,
    by decide⟩
  · intro h
    rcases (main_exit_code _ envHub ["-file", "images.txt"]).1.mp h with h1 |
      ⟨f, hf, _, file, hopen, _, hv⟩
    · exact absurd h1 (by decide)
    · simp only [fsOne, Except.ok.injEq] at hopen
      subst hopen
      exact absurd (hv "a:b:c" (by decide) (by decide)) (by decide)
  · intro h
    rcases (main_exit_code _ envHub ["-file", ""]).1.mp h with h1 | ⟨f, hf, hne, _⟩
    · exact absurd h1 (by decide)
    · have : f = "" := by
        have h2 : flagParse ["-file", ""] = FlagResult.parsed "" := rfl
        rw [h2] at hf
        injection hf with hf
        exact hf.symm
      exact hne this
  · exact ((main_exit_code (fsOne { lines := ["library/alpine:latest", "a:b:c", "library/redis:7"], scanErr := none })
      envHub ["-file", "images.txt"]).2.2.2.2 "images.txt" _ rfl (by decide) rfl).2 (by decide)

/-! ## The `uint32` field `Size` -/

theorem decodeUint32_lt (v : JSON) (old : Nat) (h : old < 2 ^ 32) :
    (decodeUint32 v old).1 < 2 ^ 32 := by
  unfold decodeUint32
  split
  · split
    · assumption
    · exact h
  · exact h
  · exact h

theorem decodeLayerFields_size (kvs : List (String × JSON)) (l : layer)
    (h : l.Size < 2 ^ 32) : (decodeLayerFields kvs l).1.Size < 2 ^ 32 := by
  induction kvs generalizing l with
  | nil => exact h
  | cons kv kvs ih =>
    obtain ⟨k, v⟩ := kv
    unfold decodeLayerFields
    split
    · exact ih _ h
    · split
      · exact ih _ (decodeUint32_lt v l.Size h)
      · exact ih _ h

theorem decodeLayer_size (v : JSON) (l : layer) (h : l.Size < 2 ^ 32) :
    (decodeLayer v l).1.Size < 2 ^ 32 := by
  unfold decodeLayer
  split
  · exact decodeLayerFields_size _ _ h
  · exact h
  · exact h

theorem decodeLayerArray_size (es : List JSON) (backing : List layer)
    (h : ∀ l ∈ backing, l.Size < 2 ^ 32) :
    (∀ l ∈ (decodeLayerArray es backing).1, l.Size < 2 ^ 32) ∧
    (∀ l ∈ (decodeLayerArray es backing).2.1, l.Size < 2 ^ 32) := by
  induction es generalizing backing with
  | nil => simpa [decodeLayerArray] using h
  | cons e es ih =>
    unfold decodeLayerArray
    have hrest := ih backing.tail (fun x hx => h x (List.mem_of_mem_tail hx))
    refine ⟨?_, hrest.2⟩
    intro l hl
    simp only [List.mem_cons] at hl
    rcases hl with hl | hl
    · rw [hl]
      apply decodeLayer_size
      cases backing with
      | nil => simp [layer.zero]
      | cons o os => exact h o (by simp)
    · exact hrest.1 l hl

theorem decodeLayers_size (v : JSON) (old : layerSlice)
    (h : ∀ l ∈ old.elems ++ old.spare, l.Size < 2 ^ 32) :
    ∀ l ∈ (decodeLayers v old).1.elems ++ (decodeLayers v old).1.spare, l.Size < 2 ^ 32 := by
  unfold decodeLayers
  split
  · simp
  · intro l hl
    simp only [List.mem_append] at hl
    rcases hl with hl | hl
    · exact (decodeLayerArray_size _ _ h).1 l hl
    · exact (decodeLayerArray_size _ _ h).2 l hl
  · simp
  · exact h

theorem decodeManifestFields_size (kvs : List (String × JSON)) (sl : layerSlice)
    (h : ∀ l ∈ sl.elems ++ sl.spare, l.Size < 2 ^ 32) :
    ∀ l ∈ (decodeManifestFields kvs sl).1.elems ++ (decodeManifestFields kvs sl).1.spare,
      l.Size < 2 ^ 32 := by
  induction kvs generalizing sl with
  | nil => exact h
  | cons kv kvs ih =>
    obtain ⟨k, v⟩ := kv
    unfold decodeManifestFields
    split
    · exact ih _ (decodeLayers_size v sl h)
    · exact ih _ h

theorem decodeManifest_size (b : Body) (m : manifest) (h : ∀ l ∈ m.Layers, l.Size < 2 ^ 32) :
    ∀ l ∈ (decodeManifest b m).1.Layers, l.Size < 2 ^ 32 := by
  unfold decodeManifest
  split
  · exact h
  · intro l hl
    exact decodeManifestFields_size _ { elems := m.Layers, spare := [] }
      (by simpa using h) l (List.mem_append_left _ hl)
  · exact h
  · exact h

/-- A member `Size` that does not fit in 32 bits makes the decoding of the
layer fail. -/
theorem decodeLayerFields_err (kvs : List (String × JSON)) (k : String) (n : Nat)
    (hmem : (k, JSON.num n) ∈ kvs) (hk : fieldMatch "Size" k = true) (hn : 2 ^ 32 ≤ n)
    (l : layer) : (decodeLayerFields kvs l).2 = true := by
  induction kvs generalizing l with
  | nil => simp at hmem
  | cons kv kvs ih =>
    obtain ⟨k1, v1⟩ := kv
    simp only [List.mem_cons, Prod.mk.injEq] at hmem
    unfold decodeLayerFields
    rcases hmem with ⟨hk1, hv1⟩ | hmem
    · subst hk1 hv1
      split
      · simp [decodeString]
      · have h32 : (2 : Nat) ^ 32 = 4294967296 := by norm_num
        have : ¬ n < 4294967296 := by omega
        simp [hk, decodeUint32, this]
    · split
      · simp [ih hmem]
      · split
        · simp [ih hmem]
        · exact ih hmem _

theorem decodeLayerArray_err (es : List JSON) (e : JSON) (hmem : e ∈ es)
    (he : ∀ old, (decodeLayer e old).2 = true) (old : List layer) :
    (decodeLayerArray es old).2.2 = true := by
  induction es generalizing old with
  | nil => simp at hmem
  | cons x xs ih =>
    unfold decodeLayerArray
    simp only [List.mem_cons] at hmem
    rcases hmem with hx | hmem
    · subst hx
      simp [he]
    · simp [ih hmem]

theorem decodeManifestFields_err (kvs : List (String × JSON)) (k : String) (v : JSON)
    (hmem : (k, v) ∈ kvs) (hk : fieldMatch "Layers" k = true)
    (hv : ∀ old, (decodeLayers v old).2 = true) (m : layerSlice) :
    (decodeManifestFields kvs m).2 = true := by
  induction kvs generalizing m with
  | nil => simp at hmem
  | cons kv kvs ih =>
    obtain ⟨k1, v1⟩ := kv
    simp only [List.mem_cons, Prod.mk.injEq] at hmem
    unfold decodeManifestFields
    rcases hmem with ⟨hk1, hv1⟩ | hmem
    · subst hk1 hv1
      simp [hk, hv]
    · split
      · simp [ih hmem]
      · exact ih hmem _

/-- C10: the field `Size` of a layer is a `uint32`: every layer of a manifest
`getManifestV2` returns has a size below 2^32; and a response with status 200
whose manifest declares, in its `layers` array, a layer whose `size` is 2^32
or more makes `getManifestV2` return a decoding error with the zero manifest,
for which `getLayers` issues no request. -/
theorem getManifestV2_layer_size_uint32 (env : Transport) (repository tag : String)
    (tok : token) (w : World) :
    (∀ l ∈ (getManifestV2 env repository tag tok w).1.Layers, l.Size < 2 ^ 32) ∧
    (∀ (r : Response) (kvs : List (String × JSON)) (k : String) (xs : List JSON)
        (fields : List (String × JSON)) (k2 : String) (n : Nat),
      newRequestOk (manifestURL repository tag) = true →
      env w.trace (manifestV2Request repository tag tok) = Except.ok r →
      r.StatusCode = 200 →
      r.Body = Body.json (JSON.obj kvs) →
      (k, JSON.arr xs) ∈ kvs → fieldMatch "Layers" k = true →
      JSON.obj fields ∈ xs →
      (k2, JSON.num n) ∈ fields → fieldMatch "Size" k2 = true →
      2 ^ 32 ≤ n →
      (getManifestV2 env repository tag tok w).2.1 = some Error.decode ∧
      (getManifestV2 env repository tag tok w).1 = manifest.zero ∧
      ∀ w2 : World,
        getLayers env repository (getManifestV2 env repository tag tok w).1 tok w2 =
          (none, w2)) := by
  constructor
  · unfold getManifestV2
    by_cases hu : newRequestOk (manifestURL repository tag) = true
    · simp only [hu, if_true]
      cases env w.trace (manifestV2Request repository tag tok) with
      | error e => simp [manifest.zero]
      | ok r =>
        by_cases hs : r.StatusCode = 200
        · by_cases hd : (decodeManifest r.Body manifest.zero).2 = true
          · simp only [hs, ne_eq, not_true_eq_false, if_false, hd, if_true]
            simp [manifest.zero]
          · simp only [hs, ne_eq, not_true_eq_false, if_false, hd]
            exact decodeManifest_size _ _ (by simp [manifest.zero])
        · simp [hs, manifest.zero]
    · simp [hu, manifest.zero]
  · intro r kvs k xs fields k2 n hu he hs hb hk hkm hx hf hfm hn
    have hd : (decodeManifest r.Body manifest.zero).2 = true := by
      rw [hb]
      unfold decodeManifest
      apply decodeManifestFields_err kvs k (JSON.arr xs) hk hkm
      intro old
      cases xs with
      | nil => simp at hx
      | cons x xs2 =>
        unfold decodeLayers
        apply decodeLayerArray_err (x :: xs2) (JSON.obj fields) hx
        intro old2
        unfold decodeLayer
        exact decodeLayerFields_err fields k2 n hf hfm hn old2
    have hres : getManifestV2 env repository tag tok w =
        (manifest.zero, some Error.decode, w.send (manifestV2Request repository tag tok)) := by
      unfold getManifestV2
      simp [hu, he, hs, hd]
    rw [hres]
    exact ⟨rfl, rfl, fun w2 => rfl⟩

/-- Witness for C10: a manifest with a layer of size 2^32 is refused, one with
a layer of size 2^32 - 1 is not. -/
theorem getManifestV2_layer_size_uint32_witness :
    ((getManifestV2 (env200 (manifestBody 4294967296)) "library/alpine" "latest"
        { Token := "T" } World.init).2.1 = some Error.decode ∧
      (getManifestV2 (env200 (manifestBody 4294967296)) "library/alpine" "latest"
        { Token := "T" } World.init).1 = manifest.zero ∧
      getLayers (env200 (manifestBody 4294967296)) "library/alpine"
          (getManifestV2 (env200 (manifestBody 4294967296)) "library/alpine" "latest"
            { Token := "T" } World.init).1 { Token := "T" } World.init =
        (none, World.init)) ∧
    getManifestV2 (env200 (manifestBody 4294967295)) "library/alpine" "latest"
        { Token := "T" } World.init =
      ({ Layers := [{ Digest := "sha256:aaaa", Size := 4294967295 }] }, none,
       World.init.send (manifestV2Request "library/alpine" "latest" { Token := "T" })) := by
  have h := (getManifestV2_layer_size_uint32 (env200 (manifestBody 4294967296)) "library/alpine"
      "latest" { Token := "T" } World.init).2
      { StatusCode := 200, Status := "200 OK", ContentLength := [],
        Body := manifestBody 4294967296 }
      [("schemaVersion", JSON.num 2),
       ("layers", JSON.arr
         [JSON.obj [("size", JSON.num 4294967296), ("digest", JSON.str "sha256:aaaa")]])]
      "layers"
      [JSON.obj [("size", JSON.num 4294967296), ("digest", JSON.str "sha256:aaaa")]]
      [("size", JSON.num 4294967296), ("digest", JSON.str "sha256:aaaa")]
      "size" 4294967296
      (by decide) rfl rfl rfl (List.mem_cons_of_mem _ (List.mem_singleton.mpr rfl)) (by decide)
      (List.mem_singleton.mpr rfl) (List.mem_cons_self _ _) (by decide) (by decide)
  exact ⟨⟨h.1, h.2.1, h.2.2 World.init⟩, by decide⟩

end Puller
